import Mathlib

/-!
Verification of the CHIP-8 emulator core (`core/cpu.py`, `core/memory.py`,
`core/display.py`, `core/input_.py`) against its natural-language
specification.  The Python classes are shallowly embedded: machine bytes and
words are `Nat` with explicit `% 256` / masking where the source wraps,
Python lists become `List`, and Python exceptions become an `Err` value
threaded next to the mutated state (a raised exception in Python leaves all
mutations made before the `raise` in place, so every fallible operation
returns the state it had reached together with `Option Err`).
-/

set_option maxRecDepth 8192

/-- Errors raised by the emulator core.  `unsupportedOpcode` is
`UnsupportedOpcodeError`, `runtimeError` the bare `RuntimeError` of
`return_from_subroutine`, `memoryOutOfBounds` / `byteOverflow` the two
`Memory` errors, `keyError` Python's `KeyError` from
`chip8_to_qwerty[key]`, and `indexError` a Python list `IndexError`. -/
inductive Err where
  | unsupportedOpcode
  | runtimeError
  | memoryOutOfBounds
  | byteOverflow
  | keyError
  | indexError
deriving DecidableEq, Repr

deriving instance DecidableEq for Except

/-- Modelled from the spec: the repository's `configs.py` (imported by every
core module for `REGISTER_COUNT`, `ROM_START_IDX`, `STACK_SIZE`, `VF_IDX`,
`MEMORY_SIZE_IN_BYTES`, `FONTSET_START_ADDRESS`, `FONTSET`) is not among the
provided sources.  The values follow §3 of the spec: 16 eight-bit registers,
program origin 0x200, a 16-level stack, flags register index 15. -/
def REGISTER_COUNT : Nat := 16

/-- Modelled from the spec: program origin (spec §3, "initialized to the
fixed program origin (0x200)"). -/
def ROM_START_IDX : Nat := 0x200

/-- Modelled from the spec: fixed stack depth (spec §3, "stack[16]"). -/
def STACK_SIZE : Nat := 16

/-- Modelled from the spec: index of the flags register (spec §3, "register
index 15 (`flags register`)"). -/
def VF_IDX : Nat := 15

/-- Modelled from the spec: memory capacity (spec §3, "a fixed-size byte
array (4096 bytes for the canonical layout)"). -/
def MEMORY_SIZE_IN_BYTES : Nat := 4096

/-- Modelled from the spec: base address of the built-in glyph table (spec
§3, "addresses 0x050–0x09F (80 bytes) permanently hold the built-in glyph
table"). -/
def FONTSET_START_ADDRESS : Nat := 0x50

/-- Modelled from the spec: the fixed 16×5-byte glyph table (spec §4.1,
"the fixed 16×5-byte glyph table"); the canonical CHIP-8 hexadecimal digit
sprites, five bytes per digit 0–F. -/
def FONTSET : List Nat :=
  [0xF0, 0x90, 0x90, 0x90, 0xF0,
   0x20, 0x60, 0x20, 0x20, 0x70,
   0xF0, 0x10, 0xF0, 0x80, 0xF0,
   0xF0, 0x10, 0xF0, 0x10, 0xF0,
   0x90, 0x90, 0xF0, 0x10, 0x10,
   0xF0, 0x80, 0xF0, 0x10, 0xF0,
   0xF0, 0x80, 0xF0, 0x90, 0xF0,
   0xF0, 0x10, 0x20, 0x40, 0x40,
   0xF0, 0x90, 0xF0, 0x90, 0xF0,
   0xF0, 0x90, 0xF0, 0x10, 0xF0,
   0xF0, 0x90, 0xF0, 0x90, 0x90,
   0xE0, 0x90, 0xE0, 0x90, 0xE0,
   0xF0, 0x80, 0x80, 0x80, 0xF0,
   0xE0, 0x90, 0x90, 0x90, 0xE0,
   0xF0, 0x80, 0xF0, 0x80, 0xF0,
   0xF0, 0x80, 0xF0, 0x80, 0x80]

namespace Memory

/-- `Memory.read_byte`: bounds check against `MEMORY_SIZE_IN_BYTES`, then a
Python list access (which itself raises `IndexError` past the list's actual
end, relevant only when an oversized ROM has grown the list). -/
def read_byte (mem : List Nat) (addr : Nat) : Except Err Nat :=
  if addr ≥ MEMORY_SIZE_IN_BYTES then .error .memoryOutOfBounds
  else match mem[addr]? with
    | some v => .ok v
    | none => .error .indexError

/-- `Memory.read_word`: big-endian combination
`self._memory[addr] << 8 | self._memory[addr + 1]` guarded by
`addr + 2 > MEMORY_SIZE_IN_BYTES`. -/
def read_word (mem : List Nat) (addr : Nat) : Except Err Nat :=
  if addr + 2 > MEMORY_SIZE_IN_BYTES then .error .memoryOutOfBounds
  else match mem[addr]?, mem[addr + 1]? with
    | some hi, some lo => .ok (hi <<< 8 ||| lo)
    | _, _ => .error .indexError

/-- `Memory.write_byte`: bounds check, then the value-range check
`value > 255 or value < 0` (the lower bound is vacuous for `Nat`), then the
list store. -/
def write_byte (mem : List Nat) (addr value : Nat) : Except Err (List Nat) :=
  if addr ≥ MEMORY_SIZE_IN_BYTES then .error .memoryOutOfBounds
  else if value > 255 then .error .byteOverflow
  else if addr < mem.length then .ok (mem.set addr value)
  else .error .indexError

/-- `Memory._load_fontset`: writes the 80 fontset bytes at
`FONTSET_START_ADDRESS + 5 * digit + byte_idx` for `digit < 16`,
`byte_idx < 5`. -/
def load_fontset (mem : List Nat) : List Nat :=
  (List.range 0x10).foldl
    (fun mem digit =>
      (List.range 5).foldl
        (fun mem byte_idx =>
          mem.set (FONTSET_START_ADDRESS + 5 * digit + byte_idx)
            (FONTSET.getD (5 * digit + byte_idx) 0))
        mem)
    mem

/-- `Memory.get_sprite_address`: `FONTSET_START_ADDRESS + 5 * digit`. -/
def get_sprite_address (digit : Nat) : Nat :=
  FONTSET_START_ADDRESS + 5 * digit

end Memory

/-- The `Memory` object: the 4096-byte array plus the one-shot ROM flag. -/
structure MemoryState where
  _memory : List Nat
  rom_loaded : Bool
deriving DecidableEq, Repr

namespace MemoryState

/-- `Memory.__init__`: zero-fill, load the fontset, clear `rom_loaded`. -/
def init : MemoryState :=
  { _memory := Memory.load_fontset (List.replicate MEMORY_SIZE_IN_BYTES 0)
    rom_loaded := false }

/-- `Memory.load_rom` from the point where the ROM bytes are in hand: a
no-op when `rom_loaded` is already set, otherwise the Python slice
assignment `self._memory[ROM_START_IDX:end_idx] = byte_array` with
`end_idx = ROM_START_IDX + len(byte_array)`.  Slice assignment replaces the
elements between `ROM_START_IDX` and `end_idx` by the new bytes — when
`end_idx` exceeds the list's length the list grows to
`ROM_START_IDX + len(byte_array)` elements. -/
def load_rom (m : MemoryState) (byte_array : List Nat) : MemoryState :=
  if m.rom_loaded then m
  else
    { _memory := m._memory.take ROM_START_IDX ++ byte_array ++
        m._memory.drop (ROM_START_IDX + byte_array.length)
      rom_loaded := true }

end MemoryState

namespace Display

/-- Read pixel `screen[y][x]` of the 32-row × 64-column grid. -/
def getPixel (s : List (List Bool)) (y x : Nat) : Bool :=
  (s.getD y []).getD x false

/-- Store into pixel `screen[y][x]`. -/
def setPixel (s : List (List Bool)) (y x : Nat) (v : Bool) : List (List Bool) :=
  s.set y ((s.getD y []).set x v)

/-- Bit `j` (0 = most significant) of sprite row byte `b`:
`format(byte_array[i], "08b")[j] == "1"` — for a byte value 0–255 (the only
values `Memory` stores) the format string has exactly eight characters and
character `j` is bit `7 - j`. -/
def spriteBit (b j : Nat) : Bool :=
  b >>> (7 - j) &&& 1 == 1

/-- One iteration of the inner loop of `Display.draw_sprite`: wrap the
coordinates, record a collision when the pixel is on and the sprite bit is
set, then XOR the sprite bit into the pixel. -/
def drawBit (x0 y0 i j b : Nat) (sc : List (List Bool) × Bool) :
    List (List Bool) × Bool :=
  let x := (x0 + j) % 64
  let y := (y0 + i) % 32
  let collided := sc.2 || (getPixel sc.1 y x && spriteBit b j)
  (setPixel sc.1 y x (xor (getPixel sc.1 y x) (spriteBit b j)), collided)

/-- `Display.draw_sprite`: the nested `for i ... for j ...` loops, starting
from the incoming screen and `collided = False`; returns the new screen and
the collision flag. -/
def draw_sprite (screen : List (List Bool)) (x0 y0 : Nat)
    (byte_array : List Nat) : List (List Bool) × Bool :=
  (List.range byte_array.length).foldl
    (fun sc i =>
      (List.range 8).foldl (fun sc j => drawBit x0 y0 i j (byte_array.getD i 0) sc) sc)
    (screen, false)

/-- `Display.clear_screen`: a fresh all-off 64×32 grid. -/
def clear_screen : List (List Bool) :=
  List.replicate 32 (List.replicate 64 false)

end Display

namespace Input_

/-- `Input_._key_states`: the 16 logical key states polled from the physical
backend; the backend's state is the `keys` argument (indexed by CHIP-8 key
code). -/
def key_states (keys : List Bool) : List Bool :=
  (List.range 16).map (fun k => keys.getD k false)

/-- `Input_.key_pressed`: `chip8_to_qwerty[key]` raises `KeyError` for a key
code outside 0–15; otherwise query the backend. -/
def key_pressed (keys : List Bool) (key : Nat) : Except Err Bool :=
  if key < 16 then .ok (keys.getD key false) else .error .keyError

/-- The scan loop of `Input_.check_keystates_changed`:
`for idx in range(len(curr)): if curr[idx] and not last[idx]: return idx`. -/
def find_rising (last curr : List Bool) (idx : Nat) : Option Nat :=
  if idx < curr.length then
    if curr.getD idx false && !(last.getD idx false) then some idx
    else find_rising last curr (idx + 1)
  else none
termination_by curr.length - idx

/-- `Input_.check_keystates_changed` on baseline `last` and fresh snapshot
`curr`: returns the first rising-edge index (or none) and the new baseline,
which is `curr` on every path. -/
def check_keystates_changed (last curr : List Bool) : Option Nat × List Bool :=
  (find_rising last curr 0, curr)

end Input_

/-- The complete emulator state owned by one session: the CPU fields of
`CPU.__init__` plus the byte array of its `Memory`, the pixel grid of its
`Display` and the wait baseline of its `Input_`. -/
structure Machine where
  registers : List Nat
  pc : Nat
  pc_modified : Bool
  i : Nat
  stack : List Nat
  sp : Nat
  opcode : Nat
  delay_timer : Nat
  sound_timer : Nat
  waiting_for_key : Bool
  memory : List Nat
  screen : List (List Bool)
  baseline_key_states : List Bool
deriving DecidableEq, Repr

namespace CPU

/-- `CPU._second_nibble` of an opcode. -/
def _second_nibble (o : Nat) : Nat := (o &&& 0x0F00) >>> 8

/-- `CPU._third_nibble` of an opcode. -/
def _third_nibble (o : Nat) : Nat := (o &&& 0x00F0) >>> 4

/-- `CPU._fourth_nibble` of an opcode. -/
def _fourth_nibble (o : Nat) : Nat := o &&& 0x000F

/-- `CPU._second_byte` of an opcode. -/
def _second_byte (o : Nat) : Nat := o &&& 0x00FF

/-- `CPU._last_3_nibbles` of an opcode. -/
def _last_3_nibbles (o : Nat) : Nat := o &&& 0x0FFF

/-- `CPU.return_from_subroutine`: raise on an empty stack, else pop the
return address into the program counter (`sp -= 1; pc = stack[sp]`). -/
def return_from_subroutine (m : Machine) : Machine × Option Err :=
  if m.sp = 0 then (m, some .runtimeError)
  else ({ m with sp := m.sp - 1, pc := m.stack.getD (m.sp - 1) 0 }, none)

/-- `CPU.dispatch_sys_control`: 00E0 clears the screen, 00EE returns from a
subroutine, anything else raises `UnsupportedOpcodeError`. -/
def dispatch_sys_control (m : Machine) : Machine × Option Err :=
  if m.opcode &&& 0x0FFF = 0x00E0 then
    ({ m with screen := Display.clear_screen }, none)
  else if m.opcode &&& 0x0FFF = 0x00EE then return_from_subroutine m
  else (m, some .unsupportedOpcode)

/-- `CPU.jump` (1nnn / Bnnn): set the program counter (plus register 0 for
Bnnn) and flag it as explicitly modified. -/
def jump (m : Machine) : Machine × Option Err :=
  let destination := m.opcode &&& 0x0FFF
  if m.opcode &&& 0xF000 = 0x1000 then
    ({ m with pc := destination, pc_modified := true }, none)
  else if m.opcode &&& 0xF000 = 0xB000 then
    ({ m with pc := destination + m.registers.getD 0 0, pc_modified := true }, none)
  else (m, some .unsupportedOpcode)

/-- `CPU.call` (2nnn): `stack[sp] = pc` (a Python list store, raising
`IndexError` when `sp` is past the stack's end), `sp += 1`, jump to the
12-bit immediate. -/
def call (m : Machine) : Machine × Option Err :=
  if m.sp < m.stack.length then
    ({ m with stack := m.stack.set m.sp m.pc, sp := m.sp + 1, pc := m.opcode &&& 0x0FFF, pc_modified := true }, none)
  else (m, some .indexError)

/-- `CPU.skip_eq_neq_nn` (3xkk / 4xkk): conditional extra `pc += 2`. -/
def skip_eq_neq_nn (m : Machine) : Machine :=
  let reg_value := m.registers.getD (_second_nibble m.opcode) 0
  let value := _second_byte m.opcode
  if (m.opcode &&& 0xF000 = 0x3000 ∧ value = reg_value) ∨
     (m.opcode &&& 0xF000 = 0x4000 ∧ value ≠ reg_value) then
    { m with pc := m.pc + 2 }
  else m

/-- `CPU.skip_eq_neq_reg` (5xy0 / 9xy0): conditional extra `pc += 2`; the
condition masks with 0xF00F, so a non-zero low nibble never matches and the
instruction silently does nothing. -/
def skip_eq_neq_reg (m : Machine) : Machine :=
  let reg1_value := m.registers.getD (_second_nibble m.opcode) 0
  let reg2_value := m.registers.getD (_third_nibble m.opcode) 0
  if (m.opcode &&& 0xF00F = 0x5000 ∧ reg1_value = reg2_value) ∨
     (m.opcode &&& 0xF00F = 0x9000 ∧ reg1_value ≠ reg2_value) then
    { m with pc := m.pc + 2 }
  else m

/-- `CPU.dispatch_comparison`: route 3xxx/4xxx to the immediate comparison
and 5xxx/9xxx to the register comparison; the Python `match` has no
wildcard arm, so nothing else can reach it (and nothing would happen if it
did). -/
def dispatch_comparison (m : Machine) : Machine :=
  if m.opcode &&& 0xF000 = 0x3000 ∨ m.opcode &&& 0xF000 = 0x4000 then
    skip_eq_neq_nn m
  else if m.opcode &&& 0xF000 = 0x5000 ∨ m.opcode &&& 0xF000 = 0x9000 then
    skip_eq_neq_reg m
  else m

/-- `CPU.set_reg` (6xkk). -/
def set_reg (m : Machine) : Machine :=
  { m with registers := m.registers.set (_second_nibble m.opcode) (_second_byte m.opcode) }

/-- `CPU.add_nn_no_carry` (7xkk): wrapping add of an immediate, flags
untouched. -/
def add_nn_no_carry (m : Machine) : Machine :=
  let reg_idx := _second_nibble m.opcode
  let value := _second_byte m.opcode
  { m with registers :=
      m.registers.set reg_idx ((m.registers.getD reg_idx 0 + value) % 256) }

/-- `CPU.add_reg_carry` (8xy4): flags register first
(`1 if sum_ > 255 else 0`), then the wrapped sum into the target. -/
def add_reg_carry (m : Machine) (reg_idx value1 value2 : Nat) : Machine :=
  let sum_ := value1 + value2
  { m with registers :=
      (m.registers.set VF_IDX (if sum_ > 255 then 1 else 0)).set reg_idx (sum_ % 256) }

/-- `CPU.sub_reg_borrow` (8xy5 / 8xy7): flags register first
(`0 if diff < 0 else 1` on the signed difference), then
`(diff + 256) % 256` into the target. -/
def sub_reg_borrow (m : Machine) (reg_idx value1 value2 : Nat) : Machine :=
  let diff : Int := (value1 : Int) - (value2 : Int)
  { m with registers := (m.registers.set VF_IDX (if diff < 0 then 0 else 1)).set reg_idx (((diff + 256) % 256).toNat) }

/-- `CPU.shift_reg_right` (8xy6): flags register gets the low bit, then the
target the value shifted right. -/
def shift_reg_right (m : Machine) (reg_idx value1 : Nat) : Machine :=
  { m with registers :=
      (m.registers.set VF_IDX (value1 &&& 0b00000001)).set reg_idx (value1 >>> 1) }

/-- `CPU.shift_reg_left` (8xyE): flags register gets bit 7 normalized to
0/1, then the target the low seven bits shifted left. -/
def shift_reg_left (m : Machine) (reg_idx value1 : Nat) : Machine :=
  { m with registers := (m.registers.set VF_IDX ((value1 &&& 0b10000000) >>> 7)).set reg_idx ((value1 &&& 0b01111111) <<< 1) }

/-- `CPU.dispatch_reg_arithmetic` (8xyN): reads both operand registers up
front, then selects on the low nibble.  The wildcard arm of the Python
`match` constructs `UnsupportedOpcodeError(...)` but does not `raise` it, so
an unknown low nibble leaves the state untouched and raises nothing. -/
def dispatch_reg_arithmetic (m : Machine) : Machine :=
  let reg1_idx := _second_nibble m.opcode
  let reg1_value := m.registers.getD reg1_idx 0
  let reg2_value := m.registers.getD (_third_nibble m.opcode) 0
  if m.opcode &&& 0x000F = 0x0000 then
    { m with registers := m.registers.set reg1_idx reg2_value }
  else if m.opcode &&& 0x000F = 0x0001 then
    { m with registers := m.registers.set reg1_idx (reg1_value ||| reg2_value) }
  else if m.opcode &&& 0x000F = 0x0002 then
    { m with registers := m.registers.set reg1_idx (reg1_value &&& reg2_value) }
  else if m.opcode &&& 0x000F = 0x0003 then
    { m with registers := m.registers.set reg1_idx (reg1_value ^^^ reg2_value) }
  else if m.opcode &&& 0x000F = 0x0004 then add_reg_carry m reg1_idx reg1_value reg2_value
  else if m.opcode &&& 0x000F = 0x0005 then sub_reg_borrow m reg1_idx reg1_value reg2_value
  else if m.opcode &&& 0x000F = 0x0006 then shift_reg_right m reg1_idx reg1_value
  else if m.opcode &&& 0x000F = 0x0007 then sub_reg_borrow m reg1_idx reg2_value reg1_value
  else if m.opcode &&& 0x000F = 0x000E then shift_reg_left m reg1_idx reg1_value
  else m

/-- `CPU.set_i` (Annn). -/
def set_i (m : Machine) : Machine :=
  { m with i := _last_3_nibbles m.opcode }

/-- `CPU.set_random_byte` (Cxkk): the immediate masked with the byte drawn
from the random source (`randint(0, 255)` modelled as the `rand`
argument). -/
def set_random_byte (m : Machine) (rand : Nat) : Machine :=
  { m with registers :=
      m.registers.set (_second_nibble m.opcode) (_second_byte m.opcode &&& rand) }

/-- The list comprehension of `CPU.draw_sprite`: read `size` consecutive
bytes starting at the index register; a failing read propagates. -/
def read_sprite_bytes (mem : List Nat) (base : Nat) : Nat → Except Err (List Nat)
  | 0 => .ok []
  | n + 1 =>
    match Memory.read_byte mem base with
    | .error e => .error e
    | .ok b =>
      match read_sprite_bytes mem (base + 1) n with
      | .error e => .error e
      | .ok bs => .ok (b :: bs)

/-- `CPU.draw_sprite` (Dxyn): fetch the sprite rows from memory, delegate
to `Display.draw_sprite`, store the collision flag (Python's `True`/`False`
stored into the register list, i.e. 1/0) into the flags register. -/
def draw_sprite (m : Machine) : Machine × Option Err :=
  let x := m.registers.getD (_second_nibble m.opcode) 0
  let y := m.registers.getD (_third_nibble m.opcode) 0
  let size := _fourth_nibble m.opcode
  match read_sprite_bytes m.memory m.i size with
  | .error e => (m, some e)
  | .ok byte_array =>
    let result := Display.draw_sprite m.screen x y byte_array
    ({ m with screen := result.1, registers := m.registers.set VF_IDX (if result.2 then 1 else 0) }, none)

/-- `CPU.process_input` (Ex9E / ExA1): the Python condition
`(low == 0x9E and pressed) or (low == 0xA1 and not pressed)` evaluated with
short-circuiting, so the key query (which can raise `KeyError`) only runs
for the two recognised low bytes; any other low byte silently skips
nothing. -/
def process_input (m : Machine) (keys : List Bool) : Machine × Option Err :=
  let key := m.registers.getD (_second_nibble m.opcode) 0
  let low_byte := _second_byte m.opcode
  if low_byte = 0x9E then
    match Input_.key_pressed keys key with
    | .error e => (m, some e)
    | .ok b => if b then ({ m with pc := m.pc + 2 }, none) else (m, none)
  else if low_byte = 0xA1 then
    match Input_.key_pressed keys key with
    | .error e => (m, some e)
    | .ok b => if !b then ({ m with pc := m.pc + 2 }, none) else (m, none)
  else (m, none)

/-- Sequential `Memory.write_byte` calls (`store_bcd`, the Fx55 register
dump): an error keeps the writes already performed, as a raised exception
does in Python. -/
def seq_writes (m : Machine) : List (Nat × Nat) → Machine × Option Err
  | [] => (m, none)
  | (addr, v) :: rest =>
    match Memory.write_byte m.memory addr v with
    | .ok mem => seq_writes { m with memory := mem } rest
    | .error e => (m, some e)

/-- The Fx65 register load loop: `registers[idx] = read_byte(i + idx)`. -/
def seq_reads (m : Machine) : List Nat → Machine × Option Err
  | [] => (m, none)
  | idx :: rest =>
    match Memory.read_byte m.memory (m.i + idx) with
    | .ok v => seq_reads { m with registers := m.registers.set idx v } rest
    | .error e => (m, some e)

/-- `CPU.store_bcd` (Fx33): hundreds/tens/ones digits to `i`, `i+1`,
`i+2`. -/
def store_bcd (m : Machine) : Machine × Option Err :=
  let val := m.registers.getD (_second_nibble m.opcode) 0
  seq_writes m ((List.range 3).map (fun j => (m.i + j, val / 10 ^ (2 - j) % 10)))

/-- `CPU.exchange_regs_memory` (Fx55 / Fx65). -/
def exchange_regs_memory (m : Machine) (write : Bool) : Machine × Option Err :=
  let reg_idx := _second_nibble m.opcode
  if write then
    seq_writes m ((List.range (reg_idx + 1)).map
      (fun idx => (m.i + idx, m.registers.getD idx 0)))
  else seq_reads m (List.range (reg_idx + 1))

/-- `CPU.dispatch_misc_fx`: the Fx handlers; an unrecognised low byte
raises `UnsupportedOpcodeError`. -/
def dispatch_misc_fx (m : Machine) (keys : List Bool) : Machine × Option Err :=
  let reg_idx := _second_nibble m.opcode
  if m.opcode &&& 0x00FF = 0x0007 then
    ({ m with registers := m.registers.set reg_idx m.delay_timer }, none)
  else if m.opcode &&& 0x00FF = 0x000A then
    ({ m with baseline_key_states := Input_.key_states keys, waiting_for_key := true }, none)
  else if m.opcode &&& 0x00FF = 0x0015 then
    ({ m with delay_timer := m.registers.getD reg_idx 0 }, none)
  else if m.opcode &&& 0x00FF = 0x0018 then
    ({ m with sound_timer := m.registers.getD reg_idx 0 }, none)
  else if m.opcode &&& 0x00FF = 0x001E then
    ({ m with i := m.i + m.registers.getD reg_idx 0 }, none)
  else if m.opcode &&& 0x00FF = 0x0029 then
    ({ m with i := Memory.get_sprite_address (m.registers.getD reg_idx 0) }, none)
  else if m.opcode &&& 0x00FF = 0x0033 then store_bcd m
  else if m.opcode &&& 0x00FF = 0x0055 then exchange_regs_memory m true
  else if m.opcode &&& 0x00FF = 0x0065 then exchange_regs_memory m false
  else (m, some .unsupportedOpcode)

/-- `CPU.dispatch`: top-level selection on the high nibble; every one of
the sixteen values 0x0–0xF has an arm, so the wildcard raise is
unreachable. -/
def dispatch (m : Machine) (keys : List Bool) (rand : Nat) : Machine × Option Err :=
  if m.opcode &&& 0xF000 = 0x0000 then dispatch_sys_control m
  else if m.opcode &&& 0xF000 = 0x1000 ∨ m.opcode &&& 0xF000 = 0xB000 then jump m
  else if m.opcode &&& 0xF000 = 0x2000 then call m
  else if m.opcode &&& 0xF000 = 0x3000 ∨ m.opcode &&& 0xF000 = 0x4000 ∨
      m.opcode &&& 0xF000 = 0x5000 ∨ m.opcode &&& 0xF000 = 0x9000 then
    (dispatch_comparison m, none)
  else if m.opcode &&& 0xF000 = 0x6000 then (set_reg m, none)
  else if m.opcode &&& 0xF000 = 0x7000 then (add_nn_no_carry m, none)
  else if m.opcode &&& 0xF000 = 0x8000 then (dispatch_reg_arithmetic m, none)
  else if m.opcode &&& 0xF000 = 0xA000 then (set_i m, none)
  else if m.opcode &&& 0xF000 = 0xC000 then (set_random_byte m rand, none)
  else if m.opcode &&& 0xF000 = 0xD000 then draw_sprite m
  else if m.opcode &&& 0xF000 = 0xE000 then process_input m keys
  else if m.opcode &&& 0xF000 = 0xF000 then dispatch_misc_fx m keys
  else (m, some .unsupportedOpcode)

/-- `CPU.check_any_key_pressed`: poll the key wait; on a rising edge store
the key into the register named by the pending Fx0A opcode and clear the
wait state.  Returns whether a key arrived. -/
def check_any_key_pressed (m : Machine) (keys : List Bool) : Machine × Bool :=
  let result := Input_.check_keystates_changed m.baseline_key_states
    (Input_.key_states keys)
  match result.1 with
  | some key =>
    ({ m with baseline_key_states := result.2, registers := m.registers.set (_second_nibble m.opcode) key, waiting_for_key := false }, true)
  | none => ({ m with baseline_key_states := result.2 }, false)

/-- `CPU.cycle`: when not waiting, fetch the word at `pc` (a failed fetch
propagates with no other change), record it as the current opcode, dispatch
it (an error keeps whatever the handler mutated before raising), then apply
the default `pc += 2` unless the handler explicitly set the counter, and
clear the flag.  When waiting, poll for a key instead. -/
def cycle (keys : List Bool) (rand : Nat) (m : Machine) : Machine × Option Err :=
  if m.waiting_for_key = false then
    match Memory.read_word m.memory m.pc with
    | .error e => (m, some e)
    | .ok o =>
      match dispatch { m with opcode := o } keys rand with
      | (m2, some e) => (m2, some e)
      | (m2, none) =>
        if m2.pc_modified = false then
          ({ m2 with pc := m2.pc + 2, pc_modified := false }, none)
        else ({ m2 with pc_modified := false }, none)
  else
    let result := check_any_key_pressed m keys
    ({ result.1 with waiting_for_key := !result.2 }, none)

/-- Run `count` cycles, stopping at the first raised error (the driving
loop stops on a surfaced error). -/
def cycles (keys : List Bool) (rand : Nat) : Nat → Machine → Machine × Option Err
  | 0, m => (m, none)
  | count + 1, m =>
    match cycle keys rand m with
    | (m', none) => cycles keys rand count m'
    | (m', some e) => (m', some e)

/-- `CPU.update_timers` over an injectable clock (`perf_counter` readings
modelled as rationals): decrement each non-zero timer by one and reset the
tick when at least 1/60 second has elapsed. -/
def update_timers (time_now : ℚ) (last_timer_update : ℚ) (delay_timer sound_timer : Nat) :
    ℚ × Nat × Nat :=
  if time_now - last_timer_update ≥ 1 / 60 then
    (time_now,
     (if delay_timer > 0 then delay_timer - 1 else delay_timer),
     (if sound_timer > 0 then sound_timer - 1 else sound_timer))
  else (last_timer_update, delay_timer, sound_timer)

end CPU

/-- A minimal concrete machine used to exercise the theorems on concrete
inputs. -/
def baseMachine : Machine :=
  { registers := List.replicate 16 0, pc := 0, pc_modified := false, i := 0,
    stack := List.replicate 16 0, sp := 0, opcode := 0, delay_timer := 0,
    sound_timer := 0, waiting_for_key := false, memory := [],
    screen := Display.clear_screen, baseline_key_states := List.replicate 16 false }

/-! Bit-level toolkit: the Python code masks opcodes with `&` and shifts
with `>>`; these lemmas translate the masks into division/remainder form so
that `omega` can reason about nibble fields. -/

theorem and_mask (o m k : Nat) : o &&& (2 ^ m - 1) * 2 ^ k = o / 2 ^ k % 2 ^ m * 2 ^ k := by
  apply Nat.eq_of_testBit_eq
  intro i
  rw [← Nat.shiftLeft_eq ((2 : Nat) ^ m - 1) k, ← Nat.shiftLeft_eq (o / 2 ^ k % 2 ^ m) k,
    show o / 2 ^ k = o >>> k from (Nat.shiftRight_eq_div_pow o k).symm]
  simp only [Nat.testBit_and, Nat.testBit_shiftLeft, Nat.testBit_two_pow_sub_one,
    Nat.testBit_mod_two_pow, Nat.testBit_shiftRight]
  by_cases h : k ≤ i
  · have hik : k + (i - k) = i := by omega
    simp only [ge_iff_le, h, decide_eq_true_eq, hik, decide_True, Bool.true_and]
    cases o.testBit i <;> simp
  · simp [ge_iff_le, h]

theorem and_F000 (o : Nat) : o &&& 0xF000 = o / 4096 % 16 * 4096 := by
  have h := and_mask o 4 12
  norm_num at h
  exact h

theorem and_0F00 (o : Nat) : o &&& 0x0F00 = o / 256 % 16 * 256 := by
  have h := and_mask o 4 8
  norm_num at h
  exact h

theorem and_00F0 (o : Nat) : o &&& 0x00F0 = o / 16 % 16 * 16 := by
  have h := and_mask o 4 4
  norm_num at h
  exact h

theorem and_000F (o : Nat) : o &&& 0x000F = o % 16 := by
  have h := and_mask o 4 0
  norm_num at h
  exact h

theorem and_00FF (o : Nat) : o &&& 0x00FF = o % 256 := by
  have h := and_mask o 8 0
  norm_num at h
  exact h

theorem and_0FFF (o : Nat) : o &&& 0x0FFF = o % 4096 := by
  have h := and_mask o 12 0
  norm_num at h
  exact h

theorem second_nibble_eq (o : Nat) : CPU._second_nibble o = o / 256 % 16 := by
  unfold CPU._second_nibble
  rw [and_0F00, Nat.shiftRight_eq_div_pow]
  norm_num

theorem third_nibble_eq (o : Nat) : CPU._third_nibble o = o / 16 % 16 := by
  unfold CPU._third_nibble
  rw [and_00F0, Nat.shiftRight_eq_div_pow]
  norm_num

theorem fourth_nibble_eq (o : Nat) : CPU._fourth_nibble o = o % 16 := by
  unfold CPU._fourth_nibble
  exact and_000F o

theorem second_byte_eq (o : Nat) : CPU._second_byte o = o % 256 := by
  unfold CPU._second_byte
  exact and_00FF o

theorem last_3_nibbles_eq (o : Nat) : CPU._last_3_nibbles o = o % 4096 := by
  unfold CPU._last_3_nibbles
  exact and_0FFF o

/-! List access helpers. -/

theorem getD_set_self {α : Type} (l : List α) (i : Nat) (v d : α) (h : i < l.length) :
    (l.set i v).getD i d = v := by
  simp [List.getD_eq_getElem?_getD, List.getElem?_set_self h]

theorem getD_set_ne {α : Type} (l : List α) (i j : Nat) (v d : α) (h : i ≠ j) :
    (l.set i v).getD j d = l.getD j d := by
  simp [List.getD_eq_getElem?_getD, List.getElem?_set_ne h]

/-- C6: one `update_timers` call decrements each timer by at most 1, never
below zero, and only when at least 1/60 second has elapsed since the last
tick (resetting the tick timestamp when it fires); two calls less than 1/60
second apart decrement each timer at most once in total, with no catch-up
for multiple elapsed periods. -/
theorem update_timers_gating (now last now1 now2 : ℚ) (delay sound : Nat)
    (h12 : now2 - now1 < 1 / 60) :
    ((CPU.update_timers now last delay sound).2.1 ≤ delay ∧
     delay - 1 ≤ (CPU.update_timers now last delay sound).2.1 ∧
     (CPU.update_timers now last delay sound).2.2 ≤ sound ∧
     sound - 1 ≤ (CPU.update_timers now last delay sound).2.2) ∧
    (delay = 0 → (CPU.update_timers now last delay sound).2.1 = 0) ∧
    (sound = 0 → (CPU.update_timers now last delay sound).2.2 = 0) ∧
    (now - last < 1 / 60 → CPU.update_timers now last delay sound = (last, delay, sound)) ∧
    (now - last ≥ 1 / 60 → (CPU.update_timers now last delay sound).1 = now) ∧
    (delay - 1 ≤ (CPU.update_timers now2 (CPU.update_timers now1 last delay sound).1
        (CPU.update_timers now1 last delay sound).2.1
        (CPU.update_timers now1 last delay sound).2.2).2.1 ∧
     sound - 1 ≤ (CPU.update_timers now2 (CPU.update_timers now1 last delay sound).1
        (CPU.update_timers now1 last delay sound).2.1
        (CPU.update_timers now1 last delay sound).2.2).2.2) := by
  unfold CPU.update_timers
  refine ⟨?_, ?_, ?_, ?_, ?_, ?_⟩
  · split_ifs <;> simp
  · intro h0
    split_ifs <;> simp [h0]
  · intro h0
    split_ifs <;> simp [h0]
  · intro hlt
    rw [if_neg (by exact fun hge => absurd hlt (not_lt.mpr hge))]
  · intro hge
    rw [if_pos hge]
  · by_cases h1 : now1 - last ≥ 1 / 60
    · rw [if_pos h1]
      have h2 : ¬ now2 - now1 ≥ 1 / 60 := by
        intro hge
        linarith
      simp only [if_neg h2]
      constructor <;> split_ifs <;> simp
    · rw [if_neg h1]
      split_ifs <;> constructor <;> simp

/-- C6 witness: a concrete clock trace exercising the two-call bound. -/
theorem update_timers_gating_witness :
    ((3 : ℚ) + 1 / 120 - 3 < 1 / 60) ∧
    (((CPU.update_timers 1 0 5 0).2.1 ≤ 5 ∧
      5 - 1 ≤ (CPU.update_timers 1 0 5 0).2.1 ∧
      (CPU.update_timers 1 0 5 0).2.2 ≤ 0 ∧
      0 - 1 ≤ (CPU.update_timers 1 0 5 0).2.2) ∧
     ((5 : Nat) = 0 → (CPU.update_timers 1 0 5 0).2.1 = 0) ∧
     ((0 : Nat) = 0 → (CPU.update_timers 1 0 5 0).2.2 = 0) ∧
     ((1 : ℚ) - 0 < 1 / 60 → CPU.update_timers 1 0 5 0 = (0, 5, 0)) ∧
     ((1 : ℚ) - 0 ≥ 1 / 60 → (CPU.update_timers 1 0 5 0).1 = 1) ∧
     (5 - 1 ≤ (CPU.update_timers (3 + 1 / 120) (CPU.update_timers 3 0 5 0).1
         (CPU.update_timers 3 0 5 0).2.1
         (CPU.update_timers 3 0 5 0).2.2).2.1 ∧
      0 - 1 ≤ (CPU.update_timers (3 + 1 / 120) (CPU.update_timers 3 0 5 0).1
         (CPU.update_timers 3 0 5 0).2.1
         (CPU.update_timers 3 0 5 0).2.2).2.2)) :=
  ⟨by norm_num, update_timers_gating 1 0 3 (3 + 1 / 120) 5 0 (by norm_num)⟩

/-- C8: for destination register `x` distinct from the flags register, the
add-with-carry instruction `8xy4` stores the wrapped sum in `Vx` and sets
`VF` to 1 exactly when the unwrapped sum exceeds 255, else 0. -/
theorem add_with_carry_spec (m : Machine) (x y : Nat)
    (hlen : m.registers.length = 16) (hx : x < 15) (hy : y < 16)
    (hop : m.opcode = 0x8004 + 256 * x + 16 * y) :
    (CPU.dispatch_reg_arithmetic m).registers.getD x 0 =
      (m.registers.getD x 0 + m.registers.getD y 0) % 256 ∧
    (CPU.dispatch_reg_arithmetic m).registers.getD VF_IDX 0 =
      (if 255 < m.registers.getD x 0 + m.registers.getD y 0 then 1 else 0) := by
  have h2 : CPU._second_nibble m.opcode = x := by
    rw [hop, second_nibble_eq]
    omega
  have h3 : CPU._third_nibble m.opcode = y := by
    rw [hop, third_nibble_eq]
    omega
  have h4 : m.opcode &&& 0x000F = 4 := by
    rw [hop, and_000F]
    omega
  simp only [CPU.dispatch_reg_arithmetic, h2, h3, h4]
  rw [if_neg (show (4 : Nat) ≠ 0 from by omega), if_neg (show (4 : Nat) ≠ 1 from by omega),
    if_neg (show (4 : Nat) ≠ 2 from by omega), if_neg (show (4 : Nat) ≠ 3 from by omega)]
  simp only [if_true]
  simp only [CPU.add_reg_carry]
  constructor
  · rw [getD_set_self _ _ _ _ (by rw [List.length_set, hlen]; omega)]
  · rw [getD_set_ne _ _ _ _ _ (show x ≠ VF_IDX from by simp only [VF_IDX]; omega),
      getD_set_self _ _ _ _ (by rw [hlen]; simp only [VF_IDX]; omega)]

theorem getDq_set_self {α : Type} (l : List α) (i : Nat) (v d : α) (h : i < l.length) :
    ((l.set i v)[i]?).getD d = v := by
  rw [List.getElem?_set_self h]
  rfl

theorem getDq_set_ne {α : Type} (l : List α) (i j : Nat) (v d : α) (h : i ≠ j) :
    ((l.set i v)[j]?).getD d = (l[j]?).getD d := by
  rw [List.getElem?_set_ne h]

/-- C8 witness: registers `{1: 0xFF, 2: 0x02}`, instruction `8124`:
result register 1 holds 0x01 and the flags register 1. -/
theorem add_with_carry_spec_witness :
    (({ baseMachine with registers := ((List.replicate 16 0).set 1 0xFF).set 2 2, opcode := 0x8124 } : Machine).registers.length = 16 ∧
     (1 : Nat) < 15 ∧ (2 : Nat) < 16 ∧
     ({ baseMachine with registers := ((List.replicate 16 0).set 1 0xFF).set 2 2, opcode := 0x8124 } : Machine).opcode = 0x8004 + 256 * 1 + 16 * 2) ∧
    ((CPU.dispatch_reg_arithmetic { baseMachine with registers := ((List.replicate 16 0).set 1 0xFF).set 2 2, opcode := 0x8124 }).registers.getD 1 0 =
      (({ baseMachine with registers := ((List.replicate 16 0).set 1 0xFF).set 2 2, opcode := 0x8124 } : Machine).registers.getD 1 0 +
       ({ baseMachine with registers := ((List.replicate 16 0).set 1 0xFF).set 2 2, opcode := 0x8124 } : Machine).registers.getD 2 0) % 256 ∧
     (CPU.dispatch_reg_arithmetic { baseMachine with registers := ((List.replicate 16 0).set 1 0xFF).set 2 2, opcode := 0x8124 }).registers.getD VF_IDX 0 =
      (if 255 < ({ baseMachine with registers := ((List.replicate 16 0).set 1 0xFF).set 2 2, opcode := 0x8124 } : Machine).registers.getD 1 0 +
          ({ baseMachine with registers := ((List.replicate 16 0).set 1 0xFF).set 2 2, opcode := 0x8124 } : Machine).registers.getD 2 0 then 1 else 0)) :=
  ⟨by decide, add_with_carry_spec _ 1 2 (by decide) (by decide) (by decide) (by decide)⟩

/-- C5: when the destination register of 8xy4 / 8xy5 / 8xy6 / 8xy7 / 8xyE
is the flags register (x = 15), the carry/borrow/shift-out flag written
first is observably discarded by the destination write: afterwards `VF`
holds only the arithmetic or shift result computed from the
pre-instruction register values. -/
theorem flags_destination_discards_flag (m : Machine) (y : Nat)
    (hlen : m.registers.length = 16) (hy : y < 16) :
    (CPU.dispatch_reg_arithmetic { m with opcode := 0x8F04 + 16 * y }).registers.getD VF_IDX 0 =
      (m.registers.getD VF_IDX 0 + m.registers.getD y 0) % 256 ∧
    (CPU.dispatch_reg_arithmetic { m with opcode := 0x8F05 + 16 * y }).registers.getD VF_IDX 0 =
      ((((m.registers.getD VF_IDX 0 : Int) - (m.registers.getD y 0 : Int)) + 256) % 256).toNat ∧
    (CPU.dispatch_reg_arithmetic { m with opcode := 0x8F06 + 16 * y }).registers.getD VF_IDX 0 =
      m.registers.getD VF_IDX 0 >>> 1 ∧
    (CPU.dispatch_reg_arithmetic { m with opcode := 0x8F07 + 16 * y }).registers.getD VF_IDX 0 =
      ((((m.registers.getD y 0 : Int) - (m.registers.getD VF_IDX 0 : Int)) + 256) % 256).toNat ∧
    (CPU.dispatch_reg_arithmetic { m with opcode := 0x8F0E + 16 * y }).registers.getD VF_IDX 0 =
      (m.registers.getD VF_IDX 0 &&& 0x7F) <<< 1 := by
  have hVlen : ∀ v : Nat, (m.registers.set VF_IDX v).length = 16 := by
    intro v
    rw [List.length_set, hlen]
  have hVlt : ∀ v : Nat, VF_IDX < (m.registers.set VF_IDX v).length := by
    intro v
    rw [hVlen]
    simp only [VF_IDX]
    omega
  refine ⟨?_, ?_, ?_, ?_, ?_⟩
  · have h2 : CPU._second_nibble (0x8F04 + 16 * y) = VF_IDX := by
      rw [second_nibble_eq]
      simp only [VF_IDX]
      omega
    have h3 : CPU._third_nibble (0x8F04 + 16 * y) = y := by
      rw [third_nibble_eq]
      omega
    have h4 : (0x8F04 + 16 * y) &&& 0x000F = 4 := by
      rw [and_000F]
      omega
    simp only [CPU.dispatch_reg_arithmetic, h2, h3, h4]
    rw [if_neg (show (4 : Nat) ≠ 0 from by omega), if_neg (show (4 : Nat) ≠ 1 from by omega),
      if_neg (show (4 : Nat) ≠ 2 from by omega), if_neg (show (4 : Nat) ≠ 3 from by omega)]
    simp only [if_true]
    simp only [CPU.add_reg_carry]
    rw [getD_set_self _ _ _ _ (hVlt _)]
  · have h2 : CPU._second_nibble (0x8F05 + 16 * y) = VF_IDX := by
      rw [second_nibble_eq]
      simp only [VF_IDX]
      omega
    have h3 : CPU._third_nibble (0x8F05 + 16 * y) = y := by
      rw [third_nibble_eq]
      omega
    have h4 : (0x8F05 + 16 * y) &&& 0x000F = 5 := by
      rw [and_000F]
      omega
    simp only [CPU.dispatch_reg_arithmetic, h2, h3, h4]
    rw [if_neg (show (5 : Nat) ≠ 0 from by omega), if_neg (show (5 : Nat) ≠ 1 from by omega),
      if_neg (show (5 : Nat) ≠ 2 from by omega), if_neg (show (5 : Nat) ≠ 3 from by omega),
      if_neg (show (5 : Nat) ≠ 4 from by omega)]
    simp only [if_true]
    simp only [CPU.sub_reg_borrow]
    rw [getD_set_self _ _ _ _ (hVlt _)]
  · have h2 : CPU._second_nibble (0x8F06 + 16 * y) = VF_IDX := by
      rw [second_nibble_eq]
      simp only [VF_IDX]
      omega
    have h3 : CPU._third_nibble (0x8F06 + 16 * y) = y := by
      rw [third_nibble_eq]
      omega
    have h4 : (0x8F06 + 16 * y) &&& 0x000F = 6 := by
      rw [and_000F]
      omega
    simp only [CPU.dispatch_reg_arithmetic, h2, h3, h4]
    rw [if_neg (show (6 : Nat) ≠ 0 from by omega), if_neg (show (6 : Nat) ≠ 1 from by omega),
      if_neg (show (6 : Nat) ≠ 2 from by omega), if_neg (show (6 : Nat) ≠ 3 from by omega),
      if_neg (show (6 : Nat) ≠ 4 from by omega), if_neg (show (6 : Nat) ≠ 5 from by omega)]
    simp only [if_true]
    simp only [CPU.shift_reg_right]
    rw [getD_set_self _ _ _ _ (hVlt _)]
  · have h2 : CPU._second_nibble (0x8F07 + 16 * y) = VF_IDX := by
      rw [second_nibble_eq]
      simp only [VF_IDX]
      omega
    have h3 : CPU._third_nibble (0x8F07 + 16 * y) = y := by
      rw [third_nibble_eq]
      omega
    have h4 : (0x8F07 + 16 * y) &&& 0x000F = 7 := by
      rw [and_000F]
      omega
    simp only [CPU.dispatch_reg_arithmetic, h2, h3, h4]
    rw [if_neg (show (7 : Nat) ≠ 0 from by omega), if_neg (show (7 : Nat) ≠ 1 from by omega),
      if_neg (show (7 : Nat) ≠ 2 from by omega), if_neg (show (7 : Nat) ≠ 3 from by omega),
      if_neg (show (7 : Nat) ≠ 4 from by omega), if_neg (show (7 : Nat) ≠ 5 from by omega),
      if_neg (show (7 : Nat) ≠ 6 from by omega)]
    simp only [if_true]
    simp only [CPU.sub_reg_borrow]
    rw [getD_set_self _ _ _ _ (hVlt _)]
  · have h2 : CPU._second_nibble (0x8F0E + 16 * y) = VF_IDX := by
      rw [second_nibble_eq]
      simp only [VF_IDX]
      omega
    have h3 : CPU._third_nibble (0x8F0E + 16 * y) = y := by
      rw [third_nibble_eq]
      omega
    have h4 : (0x8F0E + 16 * y) &&& 0x000F = 14 := by
      rw [and_000F]
      omega
    simp only [CPU.dispatch_reg_arithmetic, h2, h3, h4]
    rw [if_neg (show (14 : Nat) ≠ 0 from by omega), if_neg (show (14 : Nat) ≠ 1 from by omega),
      if_neg (show (14 : Nat) ≠ 2 from by omega), if_neg (show (14 : Nat) ≠ 3 from by omega),
      if_neg (show (14 : Nat) ≠ 4 from by omega), if_neg (show (14 : Nat) ≠ 5 from by omega),
      if_neg (show (14 : Nat) ≠ 6 from by omega), if_neg (show (14 : Nat) ≠ 7 from by omega)]
    simp only [if_true]
    simp only [CPU.shift_reg_left]
    rw [getD_set_self _ _ _ _ (hVlt _)]

/-- C5 witness: registers `{15: 0xD7, 3: 5}`, the five 8xyN forms with
destination 15 and y = 3. -/
theorem flags_destination_discards_flag_witness :
    (({ baseMachine with registers := ((List.replicate 16 0).set 15 0xD7).set 3 5 } : Machine).registers.length = 16 ∧ (3 : Nat) < 16) ∧
    ((CPU.dispatch_reg_arithmetic { { baseMachine with registers := ((List.replicate 16 0).set 15 0xD7).set 3 5 } with opcode := 0x8F04 + 16 * 3 }).registers.getD VF_IDX 0 =
      (({ baseMachine with registers := ((List.replicate 16 0).set 15 0xD7).set 3 5 } : Machine).registers.getD VF_IDX 0 + ({ baseMachine with registers := ((List.replicate 16 0).set 15 0xD7).set 3 5 } : Machine).registers.getD 3 0) % 256 ∧
     (CPU.dispatch_reg_arithmetic { { baseMachine with registers := ((List.replicate 16 0).set 15 0xD7).set 3 5 } with opcode := 0x8F05 + 16 * 3 }).registers.getD VF_IDX 0 =
      ((((({ baseMachine with registers := ((List.replicate 16 0).set 15 0xD7).set 3 5 } : Machine).registers.getD VF_IDX 0 : Int) - (({ baseMachine with registers := ((List.replicate 16 0).set 15 0xD7).set 3 5 } : Machine).registers.getD 3 0 : Int)) + 256) % 256).toNat ∧
     (CPU.dispatch_reg_arithmetic { { baseMachine with registers := ((List.replicate 16 0).set 15 0xD7).set 3 5 } with opcode := 0x8F06 + 16 * 3 }).registers.getD VF_IDX 0 =
      ({ baseMachine with registers := ((List.replicate 16 0).set 15 0xD7).set 3 5 } : Machine).registers.getD VF_IDX 0 >>> 1 ∧
     (CPU.dispatch_reg_arithmetic { { baseMachine with registers := ((List.replicate 16 0).set 15 0xD7).set 3 5 } with opcode := 0x8F07 + 16 * 3 }).registers.getD VF_IDX 0 =
      ((((({ baseMachine with registers := ((List.replicate 16 0).set 15 0xD7).set 3 5 } : Machine).registers.getD 3 0 : Int) - (({ baseMachine with registers := ((List.replicate 16 0).set 15 0xD7).set 3 5 } : Machine).registers.getD VF_IDX 0 : Int)) + 256) % 256).toNat ∧
     (CPU.dispatch_reg_arithmetic { { baseMachine with registers := ((List.replicate 16 0).set 15 0xD7).set 3 5 } with opcode := 0x8F0E + 16 * 3 }).registers.getD VF_IDX 0 =
      (({ baseMachine with registers := ((List.replicate 16 0).set 15 0xD7).set 3 5 } : Machine).registers.getD VF_IDX 0 &&& 0x7F) <<< 1) :=
  ⟨by decide, flags_destination_discards_flag _ 3 (by decide) (by decide)⟩

/-- C7: a return instruction (00EE) fetched with stack pointer 0 surfaces
the fatal empty-stack error and leaves registers, program counter, index
register, stack and stack pointer unchanged (only the transient
`opcode` latch of the fetch differs). -/
theorem empty_stack_return_fatal (m : Machine) (keys : List Bool) (rand : Nat)
    (hwait : m.waiting_for_key = false)
    (hfetch : Memory.read_word m.memory m.pc = .ok 0x00EE)
    (hsp : m.sp = 0) :
    CPU.cycle keys rand m = ({ m with opcode := 0x00EE }, some .runtimeError) := by
  unfold CPU.cycle
  rw [hwait, if_pos rfl, hfetch]
  simp only [CPU.dispatch, CPU.dispatch_sys_control, CPU.return_from_subroutine, hsp]
  rw [if_pos (show (238 &&& 61440 : Nat) = 0 from by decide),
    if_neg (show ¬(238 &&& 4095 : Nat) = 224 from by decide),
    if_pos (show (238 &&& 4095 : Nat) = 238 from by decide)]
  simp

/-- C7 witness: a two-byte program holding 00EE at the program counter. -/
theorem empty_stack_return_fatal_witness :
    (({ baseMachine with memory := [0x00, 0xEE] } : Machine).waiting_for_key = false ∧
     Memory.read_word ({ baseMachine with memory := [0x00, 0xEE] } : Machine).memory
       ({ baseMachine with memory := [0x00, 0xEE] } : Machine).pc = .ok 0x00EE ∧
     ({ baseMachine with memory := [0x00, 0xEE] } : Machine).sp = 0) ∧
    CPU.cycle (List.replicate 16 false) 0 { baseMachine with memory := [0x00, 0xEE] } =
      ({ { baseMachine with memory := [0x00, 0xEE] } with opcode := 0x00EE }, some .runtimeError) :=
  ⟨by decide, empty_stack_return_fatal _ (List.replicate 16 false) 0 (by decide) (by decide) (by decide)⟩

/-- C1: contrary to the spec's fatal-decode requirement, the step executed
on instruction word 0x8128 (an 8xyN pattern with low nibble 8, outside the
defined table) raises no error at all: the wildcard arm of
`dispatch_reg_arithmetic` constructs `UnsupportedOpcodeError` without
raising it, so the cycle completes silently and merely advances the
program counter by 2. -/
theorem invalid_8xxx_silently_ignored :
    CPU.cycle (List.replicate 16 false) 0 { baseMachine with memory := [0x81, 0x28] } =
      ({ baseMachine with memory := [0x81, 0x28], opcode := 0x8128, pc := 2 }, none) := by
  decide

/-- 8xyN with N in {8,9,A,B,C,D,F} falls into the wildcard arm, which
builds the error object without raising: the state is returned untouched. -/
theorem dispatch_reg_arithmetic_invalid (m : Machine)
    (hlow : m.opcode &&& 0x000F = 8 ∨ m.opcode &&& 0x000F = 9 ∨ m.opcode &&& 0x000F = 0xA ∨
      m.opcode &&& 0x000F = 0xB ∨ m.opcode &&& 0x000F = 0xC ∨ m.opcode &&& 0x000F = 0xD ∨
      m.opcode &&& 0x000F = 0xF) :
    CPU.dispatch_reg_arithmetic m = m := by
  rcases hlow with h | h | h | h | h | h | h <;> simp [CPU.dispatch_reg_arithmetic, h]

/-- 5xyN / 9xyN with N ≠ 0 never matches the 0xF00F-masked conditions of
`skip_eq_neq_reg`: no skip, no error, no state change. -/
theorem skip_eq_neq_reg_invalid (m : Machine)
    (hlow : m.opcode &&& 0x000F ≠ 0) :
    CPU.skip_eq_neq_reg m = m := by
  have hassoc : m.opcode &&& 0xF00F &&& 0x000F = m.opcode &&& 0x000F := by
    rw [Nat.land_assoc, show (0xF00F &&& 0x000F : Nat) = 0x000F from by decide]
  have h1 : ¬ m.opcode &&& 0xF00F = 0x5000 := by
    intro hc
    apply hlow
    rw [← hassoc, hc]
    decide
  have h2 : ¬ m.opcode &&& 0xF00F = 0x9000 := by
    intro hc
    apply hlow
    rw [← hassoc, hc]
    decide
  simp only [CPU.skip_eq_neq_reg]
  rw [if_neg]
  intro hc
  rcases hc with ⟨hc, _⟩ | ⟨hc, _⟩
  · exact h1 hc
  · exact h2 hc

/-- ExNN with NN outside {9E, A1}: both short-circuited disjuncts fail on
their first conjunct, so the key query is never made and nothing changes. -/
theorem process_input_invalid (m : Machine) (keys : List Bool)
    (h9E : m.opcode &&& 0x00FF ≠ 0x9E) (hA1 : m.opcode &&& 0x00FF ≠ 0xA1) :
    CPU.process_input m keys = (m, none) := by
  have h9E' : CPU._second_byte m.opcode ≠ 0x9E := h9E
  have hA1' : CPU._second_byte m.opcode ≠ 0xA1 := hA1
  simp only [CPU.process_input]
  rw [if_neg h9E', if_neg hA1']

/-- C10: an instruction word of the form 8xyN with N in {8,9,A,B,C,D,F},
5xyN or 9xyN with N ≠ 0, or ExNN with NN outside {9E, A1}, executes as a
silent no-op: the step raises no error and leaves registers, index
register, stack, stack pointer, memory, display and input state unchanged,
advancing only the program counter by 2 (and latching the fetched word in
the transient `opcode` field). -/
theorem invalid_subpatterns_no_op (m : Machine) (keys : List Bool) (rand : Nat) (o : Nat)
    (hwait : m.waiting_for_key = false) (hpm : m.pc_modified = false)
    (hfetch : Memory.read_word m.memory m.pc = .ok o)
    (hfam :
      (o &&& 0xF000 = 0x8000 ∧
        (o &&& 0x000F = 8 ∨ o &&& 0x000F = 9 ∨ o &&& 0x000F = 0xA ∨ o &&& 0x000F = 0xB ∨
         o &&& 0x000F = 0xC ∨ o &&& 0x000F = 0xD ∨ o &&& 0x000F = 0xF)) ∨
      ((o &&& 0xF000 = 0x5000 ∨ o &&& 0xF000 = 0x9000) ∧ o &&& 0x000F ≠ 0) ∨
      (o &&& 0xF000 = 0xE000 ∧ o &&& 0x00FF ≠ 0x9E ∧ o &&& 0x00FF ≠ 0xA1)) :
    CPU.cycle keys rand m = ({ m with opcode := o, pc := m.pc + 2 }, none) := by
  unfold CPU.cycle
  rw [if_pos hwait, hfetch]
  dsimp only
  have hdisp : CPU.dispatch { m with opcode := o } keys rand = ({ m with opcode := o }, none) := by
    rcases hfam with ⟨h8, hlow⟩ | ⟨h59, hlow⟩ | ⟨hE, h9E, hA1⟩
    · simp only [CPU.dispatch]
      rw [h8, if_neg (by decide), if_neg (by decide), if_neg (by decide), if_neg (by decide),
        if_neg (by decide), if_neg (by decide), if_pos rfl]
      rw [dispatch_reg_arithmetic_invalid _ hlow]
    · rcases h59 with h5 | h9
      · simp only [CPU.dispatch]
        rw [h5, if_neg (by decide), if_neg (by decide), if_neg (by decide), if_pos (by decide)]
        simp only [CPU.dispatch_comparison]
        rw [h5, if_neg (by decide), if_pos (by decide)]
        rw [skip_eq_neq_reg_invalid _ hlow]
      · simp only [CPU.dispatch]
        rw [h9, if_neg (by decide), if_neg (by decide), if_neg (by decide), if_pos (by decide)]
        simp only [CPU.dispatch_comparison]
        rw [h9, if_neg (by decide), if_pos (by decide)]
        rw [skip_eq_neq_reg_invalid _ hlow]
    · simp only [CPU.dispatch]
      rw [hE, if_neg (by decide), if_neg (by decide), if_neg (by decide), if_neg (by decide),
        if_neg (by decide), if_neg (by decide), if_neg (by decide), if_neg (by decide),
        if_neg (by decide), if_neg (by decide), if_pos rfl]
      rw [process_input_invalid _ keys h9E hA1]
  rw [hdisp]
  simp [hpm]

/-- C10 witness: instruction word 0xE155 (ExNN with NN = 0x55). -/
theorem invalid_subpatterns_no_op_witness :
    (({ baseMachine with memory := [0xE1, 0x55] } : Machine).waiting_for_key = false ∧
     ({ baseMachine with memory := [0xE1, 0x55] } : Machine).pc_modified = false ∧
     Memory.read_word ({ baseMachine with memory := [0xE1, 0x55] } : Machine).memory
       ({ baseMachine with memory := [0xE1, 0x55] } : Machine).pc = .ok 0xE155 ∧
     ((0xE155 &&& 0xF000 = 0x8000 ∧
        (0xE155 &&& 0x000F = 8 ∨ 0xE155 &&& 0x000F = 9 ∨ 0xE155 &&& 0x000F = 0xA ∨
         0xE155 &&& 0x000F = 0xB ∨ 0xE155 &&& 0x000F = 0xC ∨ 0xE155 &&& 0x000F = 0xD ∨
         0xE155 &&& 0x000F = 0xF)) ∨
      ((0xE155 &&& 0xF000 = 0x5000 ∨ 0xE155 &&& 0xF000 = 0x9000) ∧ 0xE155 &&& 0x000F ≠ 0) ∨
      (0xE155 &&& 0xF000 = 0xE000 ∧ 0xE155 &&& 0x00FF ≠ 0x9E ∧ 0xE155 &&& 0x00FF ≠ 0xA1))) ∧
    CPU.cycle (List.replicate 16 false) 0 { baseMachine with memory := [0xE1, 0x55] } =
      ({ { baseMachine with memory := [0xE1, 0x55] } with opcode := 0xE155, pc := ({ baseMachine with memory := [0xE1, 0x55] } : Machine).pc + 2 }, none) :=
  ⟨by decide,
   invalid_subpatterns_no_op _ (List.replicate 16 false) 0 0xE155 (by decide) (by decide)
     (by decide) (by decide)⟩

/-- The scan loop returns `some k` exactly for the first index at or after
`idx` whose state rose from not-pressed in the baseline to pressed now. -/
theorem find_rising_some_iff (last curr : List Bool) (idx k : Nat) :
    Input_.find_rising last curr idx = some k ↔
      (idx ≤ k ∧ k < curr.length ∧ curr.getD k false = true ∧ last.getD k false = false ∧
        ∀ j, idx ≤ j → j < k → ¬(curr.getD j false = true ∧ last.getD j false = false)) := by
  have main : ∀ n idx, curr.length - idx ≤ n →
      (Input_.find_rising last curr idx = some k ↔
        (idx ≤ k ∧ k < curr.length ∧ curr.getD k false = true ∧ last.getD k false = false ∧
          ∀ j, idx ≤ j → j < k → ¬(curr.getD j false = true ∧ last.getD j false = false))) := by
    intro n
    induction n with
    | zero =>
      intro idx h
      rw [Input_.find_rising, if_neg (by omega)]
      constructor
      · intro hc
        cases hc
      · intro ⟨h1, h2, _⟩
        omega
    | succ n ih =>
      intro idx h
      rw [Input_.find_rising]
      by_cases hlt : idx < curr.length
      · rw [if_pos hlt]
        by_cases hcnd : (curr.getD idx false && !last.getD idx false) = true
        · rw [if_pos hcnd]
          rw [Bool.and_eq_true, Bool.not_eq_true'] at hcnd
          constructor
          · intro hs
            cases hs
            refine ⟨le_refl _, hlt, hcnd.1, hcnd.2, ?_⟩
            intro j hj1 hj2
            omega
          · intro ⟨h1, h2, h3, h4, h5⟩
            by_cases hik : idx = k
            · rw [hik]
            · exact absurd ⟨hcnd.1, hcnd.2⟩ (h5 idx (le_refl _) (by omega))
        · rw [if_neg hcnd]
          rw [Bool.and_eq_true, Bool.not_eq_true'] at hcnd
          rw [ih (idx + 1) (by omega)]
          constructor
          · intro ⟨h1, h2, h3, h4, h5⟩
            refine ⟨by omega, h2, h3, h4, ?_⟩
            intro j hj1 hj2
            by_cases hji : j = idx
            · rw [hji]
              exact fun hc => hcnd ⟨hc.1, hc.2⟩
            · exact h5 j (by omega) hj2
          · intro ⟨h1, h2, h3, h4, h5⟩
            have hik : idx ≠ k := by
              intro hik
              rw [← hik] at h3 h4
              exact hcnd ⟨h3, h4⟩
            refine ⟨by omega, h2, h3, h4, ?_⟩
            intro j hj1 hj2
            exact h5 j (by omega) hj2
      · rw [if_neg hlt]
        constructor
        · intro hc
          cases hc
        · intro ⟨h1, h2, _⟩
          omega
  exact main curr.length idx (by omega)

/-- Pixelwise view of `Input_.key_states`. -/
theorem key_states_getD (keys : List Bool) (j : Nat) (hj : j < 16) :
    (Input_.key_states keys).getD j false = keys.getD j false := by
  simp [Input_.key_states, List.getD_eq_getElem?_getD, List.getElem?_map,
    List.getElem?_range hj]

/-- C4: each key-wait poll scans indices in ascending order, returns the
first index that changed from not-pressed in the baseline to pressed now,
and unconditionally replaces the baseline with the new snapshot; hence
after a wait begun with all 16 keys up, a single key k going down and
staying down is reported on the first poll and never again. -/
theorem key_wait_edge_detection (last curr : List Bool) (k : Nat)
    (_hlast : last.length = 16) (hcurr : curr.length = 16) (hk : k < 16) :
    (Input_.check_keystates_changed last curr).2 = curr ∧
    (∀ r, (Input_.check_keystates_changed last curr).1 = some r ↔
      (r < curr.length ∧ curr.getD r false = true ∧ last.getD r false = false ∧
        ∀ j, j < r → ¬(curr.getD j false = true ∧ last.getD j false = false))) ∧
    (Input_.check_keystates_changed (Input_.key_states (List.replicate 16 false))
        (Input_.key_states ((List.replicate 16 false).set k true))).1 = some k ∧
    (Input_.check_keystates_changed (Input_.key_states ((List.replicate 16 false).set k true))
        (Input_.key_states ((List.replicate 16 false).set k true))).1 = none := by
  have hlen16 : (Input_.key_states ((List.replicate 16 false).set k true)).length = 16 := by
    simp [Input_.key_states]
  refine ⟨rfl, ?_, ?_, ?_⟩
  · intro r
    show Input_.find_rising last curr 0 = some r ↔ _
    rw [find_rising_some_iff]
    constructor
    · intro ⟨_, h2, h3, h4, h5⟩
      exact ⟨h2, h3, h4, fun j hj => h5 j (by omega) hj⟩
    · intro ⟨h2, h3, h4, h5⟩
      exact ⟨by omega, h2, h3, h4, fun j _ hj => h5 j hj⟩
  · show Input_.find_rising _ _ 0 = some k
    rw [find_rising_some_iff]
    refine ⟨by omega, by omega, ?_, ?_, ?_⟩
    · rw [key_states_getD _ _ hk, getD_set_self _ _ _ _ (by simp [hk])]
    · rw [key_states_getD _ _ hk]
      interval_cases k <;> decide
    · intro j hj1 hj2
      intro ⟨hc, _⟩
      rw [key_states_getD _ _ (by omega),
        getD_set_ne _ _ _ _ _ (by omega)] at hc
      have hj16 : j < 16 := by omega
      interval_cases j <;> exact absurd hc (by decide)
  · cases hfound : Input_.find_rising (Input_.key_states ((List.replicate 16 false).set k true))
        (Input_.key_states ((List.replicate 16 false).set k true)) 0 with
    | none => exact hfound
    | some r =>
      exfalso
      rw [find_rising_some_iff] at hfound
      obtain ⟨_, hr, hc, hl, _⟩ := hfound
      rw [hc] at hl
      cases hl

/-- C4 witness: baseline all-up, key 5 pressed and held. -/
theorem key_wait_edge_detection_witness :
    ((List.replicate 16 false : List Bool).length = 16 ∧
     (((List.replicate 16 false).set 5 true : List Bool)).length = 16 ∧ (5 : Nat) < 16) ∧
    ((Input_.check_keystates_changed (List.replicate 16 false) ((List.replicate 16 false).set 5 true)).2 = (List.replicate 16 false).set 5 true ∧
     (∀ r, (Input_.check_keystates_changed (List.replicate 16 false) ((List.replicate 16 false).set 5 true)).1 = some r ↔
       (r < ((List.replicate 16 false).set 5 true).length ∧
        ((List.replicate 16 false).set 5 true).getD r false = true ∧
        (List.replicate 16 false).getD r false = false ∧
        ∀ j, j < r → ¬(((List.replicate 16 false).set 5 true).getD j false = true ∧
          (List.replicate 16 false).getD j false = false))) ∧
     (Input_.check_keystates_changed (Input_.key_states (List.replicate 16 false))
        (Input_.key_states ((List.replicate 16 false).set 5 true))).1 = some 5 ∧
     (Input_.check_keystates_changed (Input_.key_states ((List.replicate 16 false).set 5 true))
        (Input_.key_states ((List.replicate 16 false).set 5 true))).1 = none) :=
  ⟨by decide, key_wait_edge_detection (List.replicate 16 false) ((List.replicate 16 false).set 5 true) 5
    (by decide) (by decide) (by decide)⟩

/-- A fold whose step preserves list length preserves list length. -/
theorem foldl_length_invariant {β : Type} (F : List Nat → β → List Nat)
    (h : ∀ l b, (F l b).length = l.length) :
    ∀ (bs : List β) (l : List Nat), (bs.foldl F l).length = l.length := by
  intro bs
  induction bs with
  | nil => intro l; rfl
  | cons b bs ih =>
    intro l
    rw [List.foldl_cons, ih, h]

/-- Folding nested loops equals folding over the flattened index list. -/
theorem foldl_flatMap_eq {β γ α : Type} (xs : List β) (g : β → List γ) (f : α → γ → α) (a : α) :
    ((xs.map g).flatten).foldl f a = xs.foldl (fun a x => (g x).foldl f a) a := by
  induction xs generalizing a with
  | nil => rfl
  | cons x xs ih =>
    rw [List.map_cons, List.flatten_cons, List.foldl_append, List.foldl_cons, ih]

/-- A sequence of writes to addresses none of which is `a` leaves the cell
at `a` unchanged. -/
theorem foldl_set_getD_untouched (F V : Nat → Nat) (a : Nat) :
    ∀ (ks : List Nat) (l : List Nat), (∀ j ∈ ks, F j ≠ a) →
      (ks.foldl (fun mem j => mem.set (F j) (V j)) l).getD a 0 = l.getD a 0 := by
  intro ks
  induction ks with
  | nil => intro l _; rfl
  | cons j ks ih =>
    intro l h
    rw [List.foldl_cons, ih _ (fun j' hj' => h j' (List.mem_cons_of_mem _ hj')),
      getD_set_ne _ _ _ _ _ (h j (List.mem_cons_self _ _))]

/-- A sequence of writes to pairwise-distinct addresses: the cell written
for index `k` ends up holding `V k`. -/
theorem foldl_set_getD_distinct (F V : Nat → Nat) :
    ∀ (ks : List Nat) (l : List Nat), ks.Nodup →
      (∀ k1 ∈ ks, ∀ k2 ∈ ks, F k1 = F k2 → k1 = k2) →
      ∀ k ∈ ks, F k < l.length →
      (ks.foldl (fun mem j => mem.set (F j) (V j)) l).getD (F k) 0 = V k := by
  intro ks
  induction ks with
  | nil => intro l _ _ k hk; cases hk
  | cons j ks ih =>
    intro l hnd hinj k hk hlt
    rw [List.foldl_cons]
    rcases List.mem_cons.mp hk with hkj | hkmem
    · subst hkj
      rw [foldl_set_getD_untouched]
      · exact getD_set_self _ _ _ _ hlt
      · intro j' hj' hFj'
        have : j' = k := hinj j' (List.mem_cons_of_mem _ hj') k (List.mem_cons_self _ _) hFj'
        subst this
        exact (List.nodup_cons.mp hnd).1 hj'
    · exact ih _ (List.nodup_cons.mp hnd).2
        (fun k1 hk1 k2 hk2 => hinj k1 (List.mem_cons_of_mem _ hk1) k2 (List.mem_cons_of_mem _ hk2))
        k hkmem (by rw [List.length_set]; exact hlt)

/-- `_load_fontset` as a single pass over the 80 glyph bytes. -/
theorem load_fontset_eq_range80 (l : List Nat) :
    Memory.load_fontset l =
      (List.range 80).foldl
        (fun mem k => mem.set (FONTSET_START_ADDRESS + k) (FONTSET.getD k 0)) l := by
  unfold Memory.load_fontset
  rw [show (List.range 80) = ((List.range 0x10).map (fun d => (List.range 5).map (fun b => 5 * d + b))).flatten from by decide]
  rw [foldl_flatMap_eq]
  congr 1

/-- Construction: the memory is 4096 bytes. -/
theorem init_memory_length : MemoryState.init._memory.length = 4096 := by
  show (Memory.load_fontset (List.replicate MEMORY_SIZE_IN_BYTES 0)).length = 4096
  unfold Memory.load_fontset
  rw [foldl_length_invariant _ (fun l d => foldl_length_invariant _ (fun l b => List.length_set _ _ _) _ l),
    List.length_replicate]
  rfl

/-- Construction: the glyph table sits at 0x050–0x09F. -/
theorem init_fontset (i : Nat) (hi : i < 80) :
    MemoryState.init._memory.getD (FONTSET_START_ADDRESS + i) 0 = FONTSET.getD i 0 := by
  show (Memory.load_fontset (List.replicate MEMORY_SIZE_IN_BYTES 0)).getD
    (FONTSET_START_ADDRESS + i) 0 = FONTSET.getD i 0
  rw [load_fontset_eq_range80]
  exact foldl_set_getD_distinct (fun k => FONTSET_START_ADDRESS + k) (fun k => FONTSET.getD k 0)
    (List.range 80) _ (List.nodup_range 80)
    (fun k1 _ k2 _ h => by dsimp only at h; omega)
    i (List.mem_range.mpr hi)
    (by rw [List.length_replicate]; simp only [FONTSET_START_ADDRESS, MEMORY_SIZE_IN_BYTES]; omega)

/-- C9 counterexample: a 3585-byte program does not leave the memory at
4096 bytes — the slice assignment grows the list to 4097 entries. -/
theorem load_rom_grows_past_4096 :
    (MemoryState.init.load_rom (List.replicate 3585 0))._memory.length = 4097 ∧
    (MemoryState.init.load_rom (List.replicate 3585 0))._memory.length ≠ 4096 := by
  have h : (MemoryState.init.load_rom (List.replicate 3585 0))._memory.length = 4097 := by
    unfold MemoryState.load_rom
    rw [if_neg (by decide)]
    simp only [List.length_append, List.length_take, List.length_drop, List.length_replicate,
      init_memory_length, ROM_START_IDX]
    omega
  exact ⟨h, by omega⟩

/-- C9 (amended): loading never touches the glyph table at 0x050–0x09F,
and for every byte sequence that fits the program area (at most 3584
bytes) the memory stays exactly 4096 bytes; a longer sequence grows the
array instead. -/
theorem load_rom_preserves_fontset (rom : List Nat) :
    (∀ i, i < 80 → (MemoryState.init.load_rom rom)._memory.getD (FONTSET_START_ADDRESS + i) 0 =
      FONTSET.getD i 0) ∧
    (rom.length ≤ 3584 → (MemoryState.init.load_rom rom)._memory.length = 4096) := by
  unfold MemoryState.load_rom
  rw [if_neg (by decide)]
  constructor
  · intro i hi
    have hidx : FONTSET_START_ADDRESS + i < 512 := by
      simp only [FONTSET_START_ADDRESS]
      omega
    have htk : (MemoryState.init._memory.take ROM_START_IDX).length = 512 := by
      simp [List.length_take, init_memory_length, ROM_START_IDX]
    rw [List.getD_eq_getElem?_getD, List.getElem?_append_left (by simp only [List.length_append, htk]; omega),
      List.getElem?_append_left (by rw [htk]; omega),
      List.getElem?_take_of_lt (by simp only [ROM_START_IDX]; omega),
      ← List.getD_eq_getElem?_getD]
    exact init_fontset i hi
  · intro hlen
    simp only [List.length_append, List.length_take, List.length_drop, init_memory_length,
      ROM_START_IDX]
    omega

/-- C9 witness: a two-byte program. -/
theorem load_rom_preserves_fontset_witness :
    ((0 : Nat) < 80 ∧ ([0x12, 0x34] : List Nat).length ≤ 3584) ∧
    ((MemoryState.init.load_rom [0x12, 0x34])._memory.getD (FONTSET_START_ADDRESS + 0) 0 =
      FONTSET.getD 0 0 ∧
     (MemoryState.init.load_rom [0x12, 0x34])._memory.length = 4096) :=
  ⟨⟨by decide, by decide⟩,
   ⟨(load_rom_preserves_fontset [0x12, 0x34]).1 0 (by decide),
    (load_rom_preserves_fontset [0x12, 0x34]).2 (by decide)⟩⟩

/-! Display: pixel-level helpers. -/

theorem setPixel_length (s : List (List Bool)) (y x : Nat) (v : Bool) :
    (Display.setPixel s y x v).length = s.length :=
  List.length_set _ _ _

theorem setPixel_rows (s : List (List Bool)) (y x : Nat) (v : Bool)
    (hy : y < s.length) (h64 : ∀ row ∈ s, row.length = 64) :
    ∀ row ∈ Display.setPixel s y x v, row.length = 64 := by
  intro row hrow
  rcases List.mem_or_eq_of_mem_set hrow with h | h
  · exact h64 row h
  · subst h
    rw [List.length_set, List.getD_eq_getElem _ _ hy]
    exact h64 _ (List.getElem_mem hy)

theorem getPixel_setPixel_same (s : List (List Bool)) (y x : Nat) (v : Bool)
    (hy : y < s.length) (hx : x < (s.getD y []).length) :
    Display.getPixel (Display.setPixel s y x v) y x = v := by
  unfold Display.getPixel Display.setPixel
  rw [getD_set_self _ _ _ _ hy, getD_set_self _ _ _ _ hx]

theorem getPixel_setPixel_ne (s : List (List Bool)) (y x : Nat) (v : Bool) (y' x' : Nat)
    (h : ¬(y' = y ∧ x' = x)) :
    Display.getPixel (Display.setPixel s y x v) y' x' = Display.getPixel s y' x' := by
  unfold Display.getPixel Display.setPixel
  by_cases hy : y' = y
  · subst hy
    have hx : x ≠ x' := fun hc => h ⟨rfl, hc.symm⟩
    by_cases hylen : y' < s.length
    · rw [getD_set_self _ _ _ _ hylen, getD_set_ne _ _ _ _ _ hx]
    · rw [List.set_eq_of_length_le (by omega)]
  · rw [getD_set_ne _ _ _ _ _ (fun hc => hy hc.symm)]

/-- The nested sprite loops as one pass over (row, bit) index pairs. -/
theorem draw_sprite_eq_pairs (screen : List (List Bool)) (x0 y0 : Nat) (bytes : List Nat) :
    Display.draw_sprite screen x0 y0 bytes =
      (((List.range bytes.length).map (fun i => (List.range 8).map (fun j => (i, j)))).flatten).foldl
        (fun sc p => Display.drawBit x0 y0 p.1 p.2 (bytes.getD p.1 0) sc) (screen, false) := by
  unfold Display.draw_sprite
  rw [foldl_flatMap_eq]
  congr 1

theorem mem_pairs (n : Nat) (p : Nat × Nat) :
    p ∈ ((List.range n).map (fun i => (List.range 8).map (fun j => (i, j)))).flatten ↔
      p.1 < n ∧ p.2 < 8 := by
  rw [List.mem_flatten]
  constructor
  · rintro ⟨l, hl, hp⟩
    rw [List.mem_map] at hl
    obtain ⟨i, hi, rfl⟩ := hl
    rw [List.mem_map] at hp
    obtain ⟨j, hj, rfl⟩ := hp
    rw [List.mem_range] at hi
    rw [List.mem_range] at hj
    exact ⟨hi, hj⟩
  · rintro ⟨h1, h2⟩
    refine ⟨(List.range 8).map (fun j => (p.1, j)), ?_, ?_⟩
    · rw [List.mem_map]
      exact ⟨p.1, List.mem_range.mpr h1, rfl⟩
    · rw [List.mem_map]
      exact ⟨p.2, List.mem_range.mpr h2, rfl⟩

/-- The central invariant of `draw_sprite`: folding `drawBit` over index
pairs whose target cells are pairwise distinct XORs each targeted pixel
once, leaves every other pixel alone, and reports a collision exactly when
some 1-bit lands on a pixel that was already on. -/
theorem drawBit_foldl_spec (x0 y0 : Nat) (B : Nat → Nat) :
    ∀ (P : List (Nat × Nat)) (sc : List (List Bool) × Bool),
      sc.1.length = 32 → (∀ row ∈ sc.1, row.length = 64) →
      (P.map (fun p => ((y0 + p.1) % 32, (x0 + p.2) % 64))).Nodup →
      ((P.foldl (fun sc p => Display.drawBit x0 y0 p.1 p.2 (B p.1) sc) sc).1.length = 32 ∧
       (∀ row ∈ (P.foldl (fun sc p => Display.drawBit x0 y0 p.1 p.2 (B p.1) sc) sc).1, row.length = 64) ∧
       (∀ p ∈ P, Display.getPixel (P.foldl (fun sc p => Display.drawBit x0 y0 p.1 p.2 (B p.1) sc) sc).1 ((y0 + p.1) % 32) ((x0 + p.2) % 64) =
         xor (Display.getPixel sc.1 ((y0 + p.1) % 32) ((x0 + p.2) % 64)) (Display.spriteBit (B p.1) p.2)) ∧
       (∀ y x, (∀ p ∈ P, ¬(y = (y0 + p.1) % 32 ∧ x = (x0 + p.2) % 64)) →
         Display.getPixel (P.foldl (fun sc p => Display.drawBit x0 y0 p.1 p.2 (B p.1) sc) sc).1 y x = Display.getPixel sc.1 y x) ∧
       ((P.foldl (fun sc p => Display.drawBit x0 y0 p.1 p.2 (B p.1) sc) sc).2 = true ↔
         (sc.2 = true ∨ ∃ p ∈ P, Display.spriteBit (B p.1) p.2 = true ∧
           Display.getPixel sc.1 ((y0 + p.1) % 32) ((x0 + p.2) % 64) = true))) := by
  intro P
  induction P with
  | nil =>
    intro sc h32 h64 _
    refine ⟨h32, h64, ?_, ?_, ?_⟩
    · intro p hp
      cases hp
    · intro y x _
      rfl
    · simp
  | cons p rest ih =>
    intro sc h32 h64 hnd
    have hcy : (y0 + p.1) % 32 < sc.1.length := by
      rw [h32]
      omega
    have hcx : (x0 + p.2) % 64 < (sc.1.getD ((y0 + p.1) % 32) []).length := by
      rw [List.getD_eq_getElem _ _ hcy, h64 _ (List.getElem_mem hcy)]
      omega
    have hheadcell : ∀ q ∈ rest, ¬((y0 + q.1) % 32 = (y0 + p.1) % 32 ∧ (x0 + q.2) % 64 = (x0 + p.2) % 64) := by
      intro q hq hc
      have hmem : ((y0 + p.1) % 32, (x0 + p.2) % 64) ∈ rest.map (fun p => ((y0 + p.1) % 32, (x0 + p.2) % 64)) := by
        rw [List.mem_map]
        exact ⟨q, hq, by rw [Prod.ext_iff]; exact ⟨hc.1, hc.2⟩⟩
      exact (List.nodup_cons.mp (by rw [List.map_cons] at hnd; exact hnd)).1 hmem
    set sc' := Display.drawBit x0 y0 p.1 p.2 (B p.1) sc with hsc'
    have h32' : sc'.1.length = 32 := by
      rw [hsc']
      unfold Display.drawBit
      rw [setPixel_length, h32]
    have h64' : ∀ row ∈ sc'.1, row.length = 64 := by
      rw [hsc']
      unfold Display.drawBit
      exact setPixel_rows _ _ _ _ hcy h64
    have hpix_same : Display.getPixel sc'.1 ((y0 + p.1) % 32) ((x0 + p.2) % 64) =
        xor (Display.getPixel sc.1 ((y0 + p.1) % 32) ((x0 + p.2) % 64)) (Display.spriteBit (B p.1) p.2) := by
      rw [hsc']
      unfold Display.drawBit
      exact getPixel_setPixel_same _ _ _ _ hcy hcx
    have hpix_ne : ∀ y x, ¬(y = (y0 + p.1) % 32 ∧ x = (x0 + p.2) % 64) →
        Display.getPixel sc'.1 y x = Display.getPixel sc.1 y x := by
      intro y x hne
      rw [hsc']
      unfold Display.drawBit
      exact getPixel_setPixel_ne _ _ _ _ _ _ hne
    have hcol : sc'.2 = (sc.2 || (Display.getPixel sc.1 ((y0 + p.1) % 32) ((x0 + p.2) % 64) && Display.spriteBit (B p.1) p.2)) := rfl
    have hndrest : (rest.map (fun p => ((y0 + p.1) % 32, (x0 + p.2) % 64))).Nodup := by
      rw [List.map_cons] at hnd
      exact (List.nodup_cons.mp hnd).2
    obtain ⟨i32, i64, ipix, iun, icol⟩ := ih sc' h32' h64' hndrest
    rw [List.foldl_cons, ← hsc']
    refine ⟨i32, i64, ?_, ?_, ?_⟩
    · intro q hq
      rcases List.mem_cons.mp hq with hqp | hqrest
      · subst hqp
        rw [iun _ _ (fun q' hq' hc => hheadcell q' hq' ⟨hc.1.symm, hc.2.symm⟩ ), hpix_same]
      · rw [ipix q hqrest, hpix_ne _ _ (hheadcell q hqrest)]
    · intro y x hall
      rw [iun y x (fun q hq => hall q (List.mem_cons_of_mem _ hq)),
        hpix_ne y x (hall p (List.mem_cons_self _ _))]
    · rw [icol, hcol]
      rw [Bool.or_eq_true, Bool.and_eq_true]
      constructor
      · rintro ((hs | ⟨hpx, hbit⟩) | ⟨q, hq, hbit, hpx⟩)
        · exact Or.inl hs
        · exact Or.inr ⟨p, List.mem_cons_self _ _, hbit, hpx⟩
        · rw [hpix_ne _ _ (hheadcell q hq)] at hpx
          exact Or.inr ⟨q, List.mem_cons_of_mem _ hq, hbit, hpx⟩
      · rintro (hs | ⟨q, hq, hbit, hpx⟩)
        · exact Or.inl (Or.inl hs)
        · rcases List.mem_cons.mp hq with hqp | hqrest
          · subst hqp
            exact Or.inl (Or.inr ⟨hpx, hbit⟩)
          · refine Or.inr ⟨q, hqrest, hbit, ?_⟩
            rw [hpix_ne _ _ (hheadcell q hqrest)]
            exact hpx

theorem pairs_nodup (n : Nat) :
    (((List.range n).map (fun i => (List.range 8).map (fun j => (i, j)))).flatten).Nodup := by
  rw [List.nodup_flatten]
  constructor
  · intro l hl
    rw [List.mem_map] at hl
    obtain ⟨i, _, rfl⟩ := hl
    exact List.Nodup.map (fun a b h => by simpa using h) (List.nodup_range 8)
  · rw [List.pairwise_map]
    apply List.Pairwise.imp ?_ (List.nodup_range n)
    intro a b hab p hpa hpb
    rw [List.mem_map] at hpa hpb
    obtain ⟨j, _, rfl⟩ := hpa
    obtain ⟨j', _, hj'⟩ := hpb
    apply hab
    have := congrArg Prod.fst hj'
    simpa using this.symm

theorem pairs_cells_nodup (x0 y0 n : Nat) (hn : n ≤ 32) :
    ((((List.range n).map (fun i => (List.range 8).map (fun j => (i, j)))).flatten).map
      (fun p => ((y0 + p.1) % 32, (x0 + p.2) % 64))).Nodup := by
  apply List.Nodup.map_on ?_ (pairs_nodup n)
  intro q1 hq1 q2 hq2 heq
  rw [mem_pairs] at hq1 hq2
  rw [Prod.ext_iff] at heq
  obtain ⟨hy, hx⟩ := heq
  rw [Prod.ext_iff]
  constructor
  · omega
  · omega

/-- C2: `draw_sprite` XORs each sprite bit (bit 0 most significant) into
the pixel at `((x0+j) mod 64, (y0+i) mod 32)`, changes no other pixel, and
collides exactly when some 1-bit coincides with a pixel that was already
on; an empty sprite changes nothing and reports no collision.  (Stated for
sprites of at most 32 rows, where no two rows alias the same screen row —
the processor always passes at most 15 rows.) -/
theorem draw_sprite_xor_collision (screen : List (List Bool)) (x0 y0 : Nat) (bytes : List Nat)
    (h32 : screen.length = 32) (h64 : ∀ row ∈ screen, row.length = 64)
    (_hbytes : ∀ b ∈ bytes, b < 256) (hn : bytes.length ≤ 32) :
    Display.draw_sprite screen x0 y0 [] = (screen, false) ∧
    (∀ i, i < bytes.length → ∀ j, j < 8 →
      Display.getPixel (Display.draw_sprite screen x0 y0 bytes).1 ((y0 + i) % 32) ((x0 + j) % 64) =
        xor (Display.getPixel screen ((y0 + i) % 32) ((x0 + j) % 64))
          (Display.spriteBit (bytes.getD i 0) j)) ∧
    (∀ y x, (∀ i, i < bytes.length → ∀ j, j < 8 → ¬(y = (y0 + i) % 32 ∧ x = (x0 + j) % 64)) →
      Display.getPixel (Display.draw_sprite screen x0 y0 bytes).1 y x =
        Display.getPixel screen y x) ∧
    ((Display.draw_sprite screen x0 y0 bytes).2 = true ↔
      ∃ i, i < bytes.length ∧ ∃ j, j < 8 ∧ Display.spriteBit (bytes.getD i 0) j = true ∧
        Display.getPixel screen ((y0 + i) % 32) ((x0 + j) % 64) = true) := by
  obtain ⟨o32, o64, hpix, hun, hcol⟩ :=
    drawBit_foldl_spec x0 y0 (fun i => bytes.getD i 0)
      (((List.range bytes.length).map (fun i => (List.range 8).map (fun j => (i, j)))).flatten)
      (screen, false) h32 h64 (pairs_cells_nodup x0 y0 bytes.length hn)
  refine ⟨rfl, ?_, ?_, ?_⟩
  · intro i hi j hj
    rw [draw_sprite_eq_pairs]
    exact hpix (i, j) ((mem_pairs _ _).mpr ⟨hi, hj⟩)
  · intro y x hall
    rw [draw_sprite_eq_pairs]
    apply hun
    intro p hp
    rw [mem_pairs] at hp
    exact hall p.1 hp.1 p.2 hp.2
  · rw [draw_sprite_eq_pairs, hcol]
    constructor
    · rintro (hfalse | ⟨p, hp, hbit, hpx⟩)
      · cases hfalse
      · rw [mem_pairs] at hp
        exact ⟨p.1, hp.1, p.2, hp.2, hbit, hpx⟩
    · rintro ⟨i, hi, j, hj, hbit, hpx⟩
      exact Or.inr ⟨(i, j), (mem_pairs _ _).mpr ⟨hi, hj⟩, hbit, hpx⟩

/-- C2 witness: a one-bit sprite drawn at (100, 50) on the blank screen
(the wraparound example of the spec). -/
theorem draw_sprite_xor_collision_witness :
    (Display.clear_screen.length = 32 ∧ (∀ row ∈ Display.clear_screen, row.length = 64) ∧
     (∀ b ∈ ([0x80] : List Nat), b < 256) ∧ ([0x80] : List Nat).length ≤ 32) ∧
    (Display.draw_sprite Display.clear_screen 100 50 [] = (Display.clear_screen, false) ∧
     (∀ i, i < ([0x80] : List Nat).length → ∀ j, j < 8 →
       Display.getPixel (Display.draw_sprite Display.clear_screen 100 50 [0x80]).1 ((50 + i) % 32) ((100 + j) % 64) =
         xor (Display.getPixel Display.clear_screen ((50 + i) % 32) ((100 + j) % 64))
           (Display.spriteBit (([0x80] : List Nat).getD i 0) j)) ∧
     (∀ y x, (∀ i, i < ([0x80] : List Nat).length → ∀ j, j < 8 → ¬(y = (50 + i) % 32 ∧ x = (100 + j) % 64)) →
       Display.getPixel (Display.draw_sprite Display.clear_screen 100 50 [0x80]).1 y x =
         Display.getPixel Display.clear_screen y x) ∧
     ((Display.draw_sprite Display.clear_screen 100 50 [0x80]).2 = true ↔
       ∃ i, i < ([0x80] : List Nat).length ∧ ∃ j, j < 8 ∧
         Display.spriteBit (([0x80] : List Nat).getD i 0) j = true ∧
         Display.getPixel Display.clear_screen ((50 + i) % 32) ((100 + j) % 64) = true)) :=
  ⟨by decide,
   draw_sprite_xor_collision Display.clear_screen 100 50 [0x80] (by decide) (by decide)
     (by decide) (by decide)⟩

/-- C3 counterexample: one call (from pc = 0) followed by one return ends
with the stack pointer back at 0 but the program counter at 2 — the
instruction after the call — not at its pre-call value 0: the claim as
stated fails already for N = 1. -/
theorem call_return_pc_counterexample :
    (CPU.cycles (List.replicate 16 false) 0 2 { baseMachine with memory := [0x20, 0x04, 0x00, 0x00, 0x00, 0xEE] }).2 = none ∧
    (CPU.cycles (List.replicate 16 false) 0 2 { baseMachine with memory := [0x20, 0x04, 0x00, 0x00, 0x00, 0xEE] }).1.sp = 0 ∧
    ({ baseMachine with memory := [0x20, 0x04, 0x00, 0x00, 0x00, 0xEE] } : Machine).pc = 0 ∧
    (CPU.cycles (List.replicate 16 false) 0 2 { baseMachine with memory := [0x20, 0x04, 0x00, 0x00, 0x00, 0xEE] }).1.pc = 2 ∧
    (2 : Nat) ≠ 0 := by
  decide

/-- One executed call instruction 2nnn: pushes the address of the call
itself, bumps the stack pointer, jumps to the 12-bit target. -/
theorem call_step (m : Machine) (keys : List Bool) (rand : Nat) (t : Nat)
    (hwait : m.waiting_for_key = false)
    (hfetch : Memory.read_word m.memory m.pc = .ok (0x2000 + t))
    (ht : t < 0x1000)
    (hsp : m.sp < m.stack.length) :
    CPU.cycle keys rand m =
      ({ m with opcode := 0x2000 + t, stack := m.stack.set m.sp m.pc, sp := m.sp + 1, pc := t, pc_modified := false }, none) := by
  unfold CPU.cycle
  rw [if_pos hwait, hfetch]
  dsimp only
  have hmask : (0x2000 + t) &&& 0xF000 = 0x2000 := by
    rw [and_F000]
    omega
  have htarget : (0x2000 + t) &&& 0x0FFF = t := by
    rw [and_0FFF]
    omega
  simp only [CPU.dispatch]
  rw [hmask, if_neg (by decide), if_neg (by decide), if_pos rfl]
  simp only [CPU.call]
  rw [if_pos hsp]
  simp [htarget]

/-- One executed return instruction 00EE (non-empty stack): pops into the
program counter, which then receives the cycle's default +2 advance
because `return_from_subroutine` does not set `pc_modified`. -/
theorem ret_step (m : Machine) (keys : List Bool) (rand : Nat)
    (hwait : m.waiting_for_key = false) (hpm : m.pc_modified = false)
    (hfetch : Memory.read_word m.memory m.pc = .ok 0x00EE)
    (hsp : m.sp ≠ 0) :
    CPU.cycle keys rand m =
      ({ m with opcode := 0x00EE, sp := m.sp - 1, pc := m.stack.getD (m.sp - 1) 0 + 2 }, none) := by
  unfold CPU.cycle
  rw [if_pos hwait, hfetch]
  dsimp only
  simp only [CPU.dispatch, CPU.dispatch_sys_control, CPU.return_from_subroutine]
  rw [if_pos (show (0x00EE &&& 0xF000 : Nat) = 0 from by decide),
    if_neg (show ¬(0x00EE &&& 0x0FFF : Nat) = 0x00E0 from by decide),
    if_pos (show (0x00EE &&& 0x0FFF : Nat) = 0x00EE from by decide),
    if_neg hsp]
  simp [hpm]

/-- A single-cycle run is one cycle. -/
theorem cycles_one (keys : List Bool) (rand : Nat) (m : Machine) :
    CPU.cycles keys rand 1 m = CPU.cycle keys rand m := by
  cases h : CPU.cycle keys rand m with
  | mk m1 e => cases e <;> simp [CPU.cycles, h]

/-- Splitting a run of cycles. -/
theorem cycles_add (keys : List Bool) (rand : Nat) :
    ∀ (x y : Nat) (m : Machine), CPU.cycles keys rand (x + y) m =
      (match CPU.cycles keys rand x m with
       | (m1, none) => CPU.cycles keys rand y m1
       | (m1, some e) => (m1, some e)) := by
  intro x
  induction x with
  | zero =>
    intro y m
    rw [Nat.zero_add]
    rfl
  | succ x ih =>
    intro y m
    rw [show x + 1 + y = (x + y) + 1 from by omega]
    show (match CPU.cycle keys rand m with
          | (m1, none) => CPU.cycles keys rand (x + y) m1
          | (m1, some e) => (m1, some e)) =
        (match CPU.cycles keys rand (x + 1) m with
         | (m1, none) => CPU.cycles keys rand y m1
         | (m1, some e) => (m1, some e))
    rw [show CPU.cycles keys rand (x + 1) m =
        (match CPU.cycle keys rand m with
         | (m1, none) => CPU.cycles keys rand x m1
         | (m1, some e) => (m1, some e)) from rfl]
    cases h : CPU.cycle keys rand m with
    | mk m1 e =>
      cases e with
      | none =>
        dsimp only
        rw [ih y m1]
      | some e => rfl

/-- Peeling one cycle off the back of a run. -/
theorem cycles_succ_back (keys : List Bool) (rand : Nat) (j : Nat) (m : Machine) :
    CPU.cycles keys rand (j + 1) m =
      (match CPU.cycles keys rand j m with
       | (m1, none) => CPU.cycle keys rand m1
       | (m1, some e) => (m1, some e)) := by
  rw [cycles_add keys rand j 1 m]
  cases h : CPU.cycles keys rand j m with
  | mk m1 e =>
    cases e with
    | none =>
      dsimp only
      rw [cycles_one]
    | some e => rfl

/-- C3 (amended): for every N with 1 ≤ N ≤ 16 (the stack capacity), N
nested calls followed by N returns, each executed via `cycle`, leave the
stack pointer at 0 and the program counter at P + 2 — the instruction
following the first call — not at the pre-call value P itself, because a
call pushes the address of the call instruction and the return's popped
counter still receives the cycle's default +2 advance. -/
theorem nested_calls_returns (m : Machine) (keys : List Bool) (rand : Nat) (N : Nat) (a : Nat → Nat)
    (hN : 1 ≤ N) (hN16 : N ≤ 16)
    (hwait : m.waiting_for_key = false) (hpm : m.pc_modified = false)
    (hsp : m.sp = 0) (hstack : m.stack.length = 16)
    (ha : ∀ k, 1 ≤ k → k ≤ N → a k < 0x1000)
    (hw0 : Memory.read_word m.memory m.pc = .ok (0x2000 + a 1))
    (hwk : ∀ k, 1 ≤ k → k < N → Memory.read_word m.memory (a k) = .ok (0x2000 + a (k + 1)))
    (hwN : Memory.read_word m.memory (a N) = .ok 0x00EE)
    (hwr : ∀ k, 1 ≤ k → k < N → Memory.read_word m.memory (a k + 2) = .ok 0x00EE) :
    (CPU.cycles keys rand (2 * N) m).2 = none ∧
    (CPU.cycles keys rand (2 * N) m).1.sp = 0 ∧
    (CPU.cycles keys rand (2 * N) m).1.pc = m.pc + 2 := by
  have hcalls : ∀ j, j ≤ N → ∃ mj, CPU.cycles keys rand j m = (mj, none) ∧
      mj.waiting_for_key = false ∧ mj.pc_modified = false ∧
      mj.sp = j ∧ mj.stack.length = 16 ∧ mj.memory = m.memory ∧
      mj.pc = (if j = 0 then m.pc else a j) ∧
      (∀ k, k < j → mj.stack.getD k 0 = (if k = 0 then m.pc else a k)) := by
    intro j
    induction j with
    | zero =>
      intro _
      exact ⟨m, rfl, hwait, hpm, hsp, hstack, rfl, by simp,
        fun k hk => absurd hk (by omega)⟩
    | succ j ih =>
      intro hj
      obtain ⟨mj, hcyc, hw', hpm', hsp', hlen', hmem', hpc', hstk'⟩ := ih (by omega)
      have hfetch : Memory.read_word mj.memory mj.pc = .ok (0x2000 + a (j + 1)) := by
        rw [hmem', hpc']
        by_cases hj0 : j = 0
        · subst hj0
          simp only [if_pos rfl]
          exact hw0
        · rw [if_neg hj0]
          exact hwk j (by omega) (by omega)
      have hstep := call_step mj keys rand (a (j + 1)) hw' hfetch
        (ha (j + 1) (by omega) (by omega)) (by rw [hlen', hsp']; omega)
      refine ⟨{ mj with opcode := 0x2000 + a (j + 1), stack := mj.stack.set mj.sp mj.pc, sp := mj.sp + 1, pc := a (j + 1), pc_modified := false }, ?_, hw', rfl, ?_, ?_, hmem', ?_, ?_⟩
      · rw [cycles_succ_back keys rand j m, hcyc]
        exact hstep
      · show mj.sp + 1 = j + 1
        rw [hsp']
      · show (mj.stack.set mj.sp mj.pc).length = 16
        rw [List.length_set, hlen']
      · show a (j + 1) = if j + 1 = 0 then m.pc else a (j + 1)
        rw [if_neg (by omega)]
      · intro k hk
        show (mj.stack.set mj.sp mj.pc).getD k 0 = _
        by_cases hkj : k = j
        · subst hkj
          rw [hsp', getD_set_self _ _ _ _ (by rw [hlen']; omega), hpc']
        · rw [hsp', getD_set_ne _ _ _ _ _ (fun hc => hkj hc.symm)]
          exact hstk' k (by omega)
  obtain ⟨mN, hcycN, hwN', hpmN, hspN, hlenN, hmemN, hpcN, hstkN⟩ := hcalls N (le_refl N)
  have hrets : ∀ r, r ≤ N → ∃ mr, CPU.cycles keys rand r mN = (mr, none) ∧
      mr.waiting_for_key = false ∧ mr.pc_modified = false ∧
      mr.sp = N - r ∧ mr.stack = mN.stack ∧ mr.memory = m.memory ∧
      mr.pc = (if r = 0 then a N else (if N - r = 0 then m.pc else a (N - r)) + 2) := by
    intro r
    induction r with
    | zero =>
      intro _
      refine ⟨mN, rfl, hwN', hpmN, ?_, rfl, hmemN, ?_⟩
      · rw [hspN]
        omega
      · rw [hpcN, if_neg (by omega), if_pos rfl]
    | succ r ih =>
      intro hr
      obtain ⟨mr, hcycr, hwr', hpmr, hspr, hstkr, hmemr, hpcr⟩ := ih (by omega)
      have hfetch : Memory.read_word mr.memory mr.pc = .ok 0x00EE := by
        rw [hmemr, hpcr]
        by_cases hr0 : r = 0
        · subst hr0
          simp only [if_pos rfl]
          exact hwN
        · rw [if_neg hr0, if_neg (show ¬(N - r = 0) from by omega)]
          exact hwr (N - r) (by omega) (by omega)
      have hstep := ret_step mr keys rand hwr' hpmr hfetch (by rw [hspr]; omega)
      refine ⟨{ mr with opcode := 0x00EE, sp := mr.sp - 1, pc := mr.stack.getD (mr.sp - 1) 0 + 2 }, ?_, hwr', hpmr, ?_, hstkr, hmemr, ?_⟩
      · rw [cycles_succ_back keys rand r mN, hcycr]
        exact hstep
      · show mr.sp - 1 = N - (r + 1)
        rw [hspr]
        omega
      · show mr.stack.getD (mr.sp - 1) 0 + 2 = _
        rw [hspr, hstkr, if_neg (by omega)]
        rw [show N - r - 1 = N - (r + 1) from by omega]
        rw [hstkN (N - (r + 1)) (by omega)]
  obtain ⟨mF, hcycF, _, _, hspF, _, _, hpcF⟩ := hrets N (le_refl N)
  have h2N : CPU.cycles keys rand (2 * N) m = (mF, none) := by
    rw [show 2 * N = N + N from by omega, cycles_add keys rand N N m, hcycN]
    exact hcycF
  rw [h2N]
  refine ⟨rfl, ?_, ?_⟩
  · show mF.sp = 0
    rw [hspF]
    omega
  · show mF.pc = m.pc + 2
    rw [hpcF, if_neg (by omega), if_pos (by omega)]

/-- C3 witness: one nested call then one return, program at pc = 0. -/
theorem nested_calls_returns_witness :
    (({ baseMachine with memory := [0x20, 0x04, 0x00, 0x00, 0x00, 0xEE] } : Machine).waiting_for_key = false ∧
     ({ baseMachine with memory := [0x20, 0x04, 0x00, 0x00, 0x00, 0xEE] } : Machine).pc_modified = false ∧
     ({ baseMachine with memory := [0x20, 0x04, 0x00, 0x00, 0x00, 0xEE] } : Machine).sp = 0 ∧
     ({ baseMachine with memory := [0x20, 0x04, 0x00, 0x00, 0x00, 0xEE] } : Machine).stack.length = 16 ∧
     Memory.read_word ({ baseMachine with memory := [0x20, 0x04, 0x00, 0x00, 0x00, 0xEE] } : Machine).memory
       ({ baseMachine with memory := [0x20, 0x04, 0x00, 0x00, 0x00, 0xEE] } : Machine).pc = .ok (0x2000 + 4) ∧
     Memory.read_word ({ baseMachine with memory := [0x20, 0x04, 0x00, 0x00, 0x00, 0xEE] } : Machine).memory 4 = .ok 0x00EE) ∧
    ((CPU.cycles (List.replicate 16 false) 0 (2 * 1) { baseMachine with memory := [0x20, 0x04, 0x00, 0x00, 0x00, 0xEE] }).2 = none ∧
     (CPU.cycles (List.replicate 16 false) 0 (2 * 1) { baseMachine with memory := [0x20, 0x04, 0x00, 0x00, 0x00, 0xEE] }).1.sp = 0 ∧
     (CPU.cycles (List.replicate 16 false) 0 (2 * 1) { baseMachine with memory := [0x20, 0x04, 0x00, 0x00, 0x00, 0xEE] }).1.pc =
       ({ baseMachine with memory := [0x20, 0x04, 0x00, 0x00, 0x00, 0xEE] } : Machine).pc + 2) :=
  ⟨by decide,
   nested_calls_returns { baseMachine with memory := [0x20, 0x04, 0x00, 0x00, 0x00, 0xEE] }
     (List.replicate 16 false) 0 1 (fun _ => 4) (by decide) (by decide) (by decide) (by decide)
     (by decide) (by decide) (fun k _ _ => show (4 : Nat) < 4096 by decide) (by decide)
     (fun k h1 h2 => absurd h2 (by omega)) (by decide)
     (fun k h1 h2 => absurd h2 (by omega))⟩
